import Mathlib

/-!
Verification of the Sequoia voyage-ingest engine against its specification.

The definitions below are a shallow embedding of the Python sources under
voyage-ingest/voyage_ingest/ (slugger.py, parser.py, drive_sync.py,
sheets_updater.py, db_updater.py, main.py).  Pure functions are translated
to Lean functions over List Char / String; module-global state (caches,
counters) is threaded explicitly; Python exceptions become Except values;
remote calls (Google APIs, S3, Postgres) are parameterised by oracles that
supply the remote answers, so that the control flow of the embedded code is
exactly the control flow of the source.
-/

namespace VoyageIngest

/-! ## Slugger (slugger.py)

Character-level helpers.  Python's str.lower() is modelled by Char.toLower
(basic-latin lowering; the characters relevant to slugs, namely ASCII
letters, digits and punctuation, behave identically).  The regex
[^a-z0-9]+ replaced by a single dash is modelled as a character map to
dashes followed by collapsing of adjacent dashes, which computes the same
string.
-/

/-- Is the character in the regex class [a-z0-9]? -/
def isLowerAlnum (c : Char) : Bool :=
  ('a' ≤ c && c ≤ 'z') || ('0' ≤ c && c ≤ '9')

/-- One character of the substitution step of _slug_re.sub("-", s):
characters outside [a-z0-9] become a dash. -/
def dashifyChar (c : Char) : Char :=
  if isLowerAlnum c then c else '-'

/-- Collapse every run of adjacent dashes to a single dash.  Applied after
dashifyChar this computes _slug_re.sub("-", s); applied on its own it
computes re.sub(r"-{2,}", "-", s). -/
def collapseDash : List Char → List Char
  | [] => []
  | [c] => [c]
  | a :: b :: rest =>
    if a = '-' && b = '-' then collapseDash (b :: rest)
    else a :: collapseDash (b :: rest)

def isDash (c : Char) : Bool := c = '-'

/-- Python str.strip("-"): remove leading and trailing dashes. -/
def stripDash (l : List Char) : List Char :=
  ((l.dropWhile isDash).reverse.dropWhile isDash).reverse

/-- Python whitespace for str.strip(). -/
def isPySpace (c : Char) : Bool :=
  c = ' ' || c = '\t' || c = '\n' || c = '\r' || c = '\x0b' || c = '\x0c'

/-- Python str.strip(): remove leading and trailing whitespace. -/
def pyStrip (l : List Char) : List Char :=
  ((l.dropWhile isPySpace).reverse.dropWhile isPySpace).reverse

/-- Core of slugger.slugify on character lists. -/
def slugifyChars (l : List Char) : List Char :=
  let s1 := collapseDash ((l.map Char.toLower).map dashifyChar)
  let s2 := stripDash s1
  let s3 := collapseDash s2
  if s3.isEmpty then "unknown".data else s3

/-- slugger.slugify: lowercase, collapse runs of non-[a-z0-9] to "-", strip
dashes, collapse doubled dashes, with "unknown" for an empty result. -/
def slugify (text : String) : String :=
  String.mk (slugifyChars text.data)

/-- Core of slugger._tokenize_date on character lists. -/
def tokenizeDateChars (l : List Char) : List Char :=
  let s := (pyStrip l).map Char.toLower
  if s.isEmpty then "undated".data
  else
    let t := stripDash (collapseDash (s.map dashifyChar))
    if t.isEmpty then "undated".data else t

/-- slugger._tokenize_date: lenient free-text date to slug token,
"undated" when empty. -/
def tokenizeDate (s : String) : String :=
  String.mk (tokenizeDateChars s.data)

/-- Alias table of slugger.normalize_source. -/
def sourceAliases : List (String × String) :=
  [ ("white-house", "white-house")
  , ("white-house-photographer", "white-house")
  , ("national-archives", "national-archives")
  , ("natl-archives", "national-archives")
  , ("cbs-news", "cbs-news")
  , ("new-york-times", "new-york-times") ]

/-- Assoc-list lookup modelling Python dict.get(k, default). -/
def dictGetD (d : List (String × String)) (k dflt : String) : String :=
  match d.lookup k with
  | some v => v
  | none => dflt

/-- slugger.normalize_source: canonical source slug with a small alias
table, "unknown-source" when the credit is empty. -/
def normalize_source (credit : String) : String :=
  let raw := String.mk (pyStrip credit.data)
  if raw = "" then "unknown-source"
  else
    let s := slugify raw
    dictGetD sourceAliases s s

/-- Python f-string "{n:02d}" for a natural number. -/
def pad2 (n : Nat) : String :=
  if n < 10 then "0" ++ toString n else toString n

/-- A media item as the loosely-typed dict the parser produces; absent keys
are the empty string, matching Python truthiness of m.get(k). -/
structure MediaItem where
  slug : String := ""
  title : String := ""
  media_type : String := ""
  credit : String := ""
  date : String := ""
  description : String := ""
  tags : String := ""
  google_drive_link : String := ""
  source_slug : String := ""
  s3_url : String := ""
  thumbnail_s3_url : String := ""
  copyright_restrictions : String := ""
deriving Repr, DecidableEq

/-- Counter lookup for generate_media_slugs: counters.get(key, 0). -/
def counterGet : List ((String × String × String) × Nat) →
    (String × String × String) → Nat
  | [], _ => 0
  | (k', n) :: rest, k => if k' = k then n else counterGet rest k

/-- Counter store: counters[key] = n (Python dict assignment). -/
def counterSet (cs : List ((String × String × String) × Nat))
    (k : String × String × String) (n : Nat) :
    List ((String × String × String) × Nat) :=
  (k, n) :: cs.filter (fun p => decide (p.1 ≠ k))

/-- One iteration of the loop of slugger.generate_media_slugs. -/
def genSlugStep (vslug : String)
    (st : List ((String × String × String) × Nat) × List MediaItem)
    (m : MediaItem) :
    List ((String × String × String) × Nat) × List MediaItem :=
  if m.slug ≠ "" then (st.1, st.2 ++ [m])
  else
    let dt := tokenizeDate m.date
    let src := normalize_source m.credit
    let key := (dt, src, vslug)
    let n := counterGet st.1 key + 1
    let slug := dt ++ "-" ++ src ++ "-" ++ vslug ++ "-" ++ pad2 n
    (counterSet st.1 key n,
     st.2 ++ [{ m with source_slug := src, slug := slug }])

/-- slugger.generate_media_slugs: fill missing slugs as
date_token-source_slug-voyage_slug-NN with NN a per-(date_token,
source_slug, voyage_slug) counter starting at 01.  The Python version
mutates the dicts in place; this embedding returns the updated list. -/
def generate_media_slugs (items : List MediaItem) (vslug : String) :
    List MediaItem :=
  (items.foldl (genSlugStep vslug) ([], [])).2

/-- Does rest start with pres plus a dash, or equal pres entirely?  This is
the match condition of slugger.president_from_voyage_slug. -/
def presMatch (rest : List Char) (pres : String) : Bool :=
  (pres.data ++ ['-']).isPrefixOf rest || rest == pres.data

/-- One candidate of the best-match loop of president_from_voyage_slug:
keep the longer of the current best and a matching candidate. -/
def bestStep (rest : List Char) (best : Option String) (pres : String) :
    Option String :=
  if presMatch rest pres then
    match best with
    | none => some pres
    | some b => if pres.length > b.length then some pres else best
  else best

/-- The best-candidate loop of president_from_voyage_slug: keep the longest
matching president slug. -/
def bestPres (rest : List Char) (known : List String) : Option String :=
  known.foldl (bestStep rest) none

/-- slugger.president_from_voyage_slug, with the presidents registry read
from the sheet passed in as the list known.  Extracts the president slug
from YYYY-MM-DD-<president_slug>-<descriptor...>. -/
def president_from_voyage_slug (known : List String) (voyage_slug : String) :
    String :=
  let s := (pyStrip voyage_slug.data).map Char.toLower
  if s.length < 12 ∨ ¬(s.get? 4 = some '-') ∨ ¬(s.get? 7 = some '-')
      ∨ ¬(s.get? 10 = some '-') then
    "unknown-president"
  else
    let rest := s.drop 11
    let viaKnown : Option String :=
      if known.isEmpty then none else bestPres rest known
    match viaKnown with
    | some b => b
    | none =>
      if rest.contains '-' then String.mk (rest.takeWhile (· ≠ '-'))
      else if rest.isEmpty then "unknown-president" else String.mk rest

/-! ## Shape of slugify output (claim C10) -/

/-- No two adjacent characters of the list are both dashes. -/
def noDoubleDash : List Char → Bool
  | a :: b :: rest => !(a = '-' && b = '-') && noDoubleDash (b :: rest)
  | _ => true

/-- The regex ^[a-z0-9]+(-[a-z0-9]+)*$ on character lists: nonempty, every
character in [a-z0-9-], no leading dash, no trailing dash, and no two
adjacent dashes. -/
def validSlugChars (l : List Char) : Bool :=
  !l.isEmpty && l.all (fun c => isLowerAlnum c || isDash c)
    && !(l.head? == some '-') && !(l.getLast? == some '-') && noDoubleDash l

/-! ## Media slug generation (claim C8) -/

/-- The counter key of a media item in generate_media_slugs:
(date_token, source_slug, voyage_slug). -/
def mediaKey (vslug : String) (m : MediaItem) : String × String × String :=
  (tokenizeDate m.date, normalize_source m.credit, vslug)

/-- Recursive twin of the foldl in generate_media_slugs: processes the
items in order, threading the counters. -/
def genRec (vslug : String)
    (cs : List ((String × String × String) × Nat)) :
    List MediaItem → List MediaItem
  | [] => []
  | m :: ms =>
    if m.slug ≠ "" then m :: genRec vslug cs ms
    else
      let dt := tokenizeDate m.date
      let src := normalize_source m.credit
      let key := (dt, src, vslug)
      let n := counterGet cs key + 1
      { m with
        source_slug := src,
        slug := dt ++ "-" ++ src ++ "-" ++ vslug ++ "-" ++ pad2 n }
        :: genRec vslug (counterSet cs key n) ms

/-- How many of the items are in counter scope k and lack a slug. -/
def countScope (vslug : String) (k : String × String × String)
    (l : List MediaItem) : Nat :=
  (l.filter (fun m => decide (m.slug = "") && decide (mediaKey vslug m = k))).length

/-! ## Canonical object-store keys (claim C1), from drive_sync.py

The presidents registry that president_from_voyage_slug reads from the
spreadsheet is passed in as the list known. -/

/-- drive_sync._s3_key_for_original: note the path segment before the
filename is mtype, the media type. -/
def s3_key_for_original (known : List String)
    (vslug mslug mtype ext credit : String) : String :=
  "media/" ++ president_from_voyage_slug known vslug ++ "/"
    ++ normalize_source credit ++ "/" ++ vslug ++ "/" ++ mtype ++ "/"
    ++ mslug ++ "." ++ ext

/-- drive_sync._s3_key_for_derivative. -/
def s3_key_for_derivative (known : List String)
    (vslug mslug mtype credit kind : String) : String :=
  "media/" ++ president_from_voyage_slug known vslug ++ "/"
    ++ normalize_source credit ++ "/" ++ vslug ++ "/" ++ mtype ++ "/"
    ++ mslug ++ "_" ++ kind ++ ".jpg"

/-- The canonical key in the form the specification states it, with the
file extension as the directory segment before the filename. -/
def specCanonicalKey (known : List String)
    (vslug mslug ext credit : String) : String :=
  "media/" ++ president_from_voyage_slug known vslug ++ "/"
    ++ normalize_source credit ++ "/" ++ vslug ++ "/" ++ ext ++ "/"
    ++ mslug ++ "." ++ ext

/-! ## Spreadsheet keyed upsert (claim C4), from sheets_updater.py

A tab is modelled by its data rows (the header row is the fixed headers
constant for the tab); the IndexCache mirrors the tab contents after every
write, so one list of rows models both. -/

abbrev PyDict := List (String × String)

/-- Python d.get(k, "") for string-valued dicts. -/
def pyGet (d : PyDict) (k : String) : String := (d.lookup k).getD ""

def VOYAGES_HEADERS : List String :=
  ["voyage_slug", "title", "start_date", "end_date", "origin", "destination",
   "vessel_name", "voyage_type", "summary_markdown", "notes_internal",
   "source_urls", "tags"]

def PASSENGERS_HEADERS : List String :=
  ["person_slug", "full_name", "role_title", "organization", "birth_year",
   "death_year", "wikipedia_url", "notes_internal", "tags"]

def MEDIA_HEADERS : List String :=
  ["media_slug", "title", "media_type", "s3_url", "thumbnail_s3_url",
   "credit", "date", "description_markdown", "tags",
   "copyright_restrictions", "google_drive_link"]

def VOYAGE_PASSENGERS_HEADERS : List String :=
  ["voyage_slug", "person_slug", "capacity_role", "notes"]

def VOYAGE_MEDIA_HEADERS : List String :=
  ["voyage_slug", "media_slug", "sort_order", "notes"]

def VOYAGE_PRESIDENTS_HEADERS : List String :=
  ["voyage_slug", "president_slug", "notes"]

/-- sheets_updater._dict_to_row. -/
def dict_to_row (d : PyDict) (headers : List String) : List String :=
  headers.map (fun h => pyGet d h)

/-- The key_column to row lookup of IndexCache.get_row_index_by_key: the
first data row whose key-column cell equals the key (rows shorter than the
key column are skipped, which the getD default "" models because an upsert
key is never empty). -/
def findRowIdx (rows : List (List String)) (kidx : Nat) (keyVal : String) :
    Option Nat :=
  rows.findIdx? (fun row => decide (row.getD kidx "" = keyVal))

/-- sheets_updater._upsert on one tab: none models the ValueError raised
for an empty key value; a key hit updates the row in place, a miss
appends. -/
def upsertTab (headers : List String) (keyCol : String) (d : PyDict)
    (rows : List (List String)) : Option (List (List String)) :=
  let keyVal := pyGet d keyCol
  if keyVal = "" then none
  else
    match headers.findIdx? (fun h => decide (h = keyCol)) with
    | none => some (rows ++ [dict_to_row d headers])
    | some kidx =>
      match findRowIdx rows kidx keyVal with
      | some i => some (rows.set i (dict_to_row d headers))
      | none => some (rows ++ [dict_to_row d headers])

/-- sheets_updater._infer_sort_order: value of the maximal trailing digit
run of the media slug, none when there is no trailing digit. -/
def infer_sort_order (mslug : String) : Option Nat :=
  let ds := (mslug.data.reverse.takeWhile Char.isDigit).reverse
  if ds.isEmpty then none
  else some (ds.foldl (fun acc c => acc * 10 + (c.toNat - 48)) 0)

/-- Python substring containment sub in s, on character lists. -/
def strIn (sub s : List Char) : Bool := decide (sub <:+: s)

/-- sheets_updater._infer_capacity_role. -/
def infer_capacity_role (p : PyDict) : String :=
  let role := String.mk (pyStrip (pyGet p "role_title").data)
  if role ≠ "" then role
  else
    let tags := (pyGet p "tags").data.map Char.toLower
    if strIn "president".data tags then "President"
    else if strIn "press".data tags then "Press"
    else if strIn "crew".data tags then "Crew"
    else if strIn "guest".data tags then "Guest"
    else "Guest"

structure SheetsState where
  voyages : List (List String) := []
  passengers : List (List String) := []
  media : List (List String) := []
  voyage_passengers : List (List String) := []
  voyage_media : List (List String) := []
  voyage_presidents : List (List String) := []
  presidents : List (List String) := []
deriving Repr, DecidableEq

/-- The presidents-tab slug column used by
_join_presidents_from_passengers, given that tab's header row. -/
def presSlugColIdx (presHeaders : List String) : Option Nat :=
  match ["president_slug", "person_slug", "slug"].find?
      (fun cand => presHeaders.contains cand) with
  | some cand => presHeaders.findIdx? (fun h => decide (h = cand))
  | none => none

/-- sheets_updater._join_presidents_from_passengers: the passenger slugs
that appear in the presidents tab (whose header row and data rows are
given). -/
def joinPresSlugs (presHeaders : List String)
    (presRows : List (List String)) (passengers : List PyDict) :
    List String :=
  match presSlugColIdx presHeaders with
  | none => []
  | some idx =>
    passengers.filterMap (fun p =>
      let pslug := if pyGet p "slug" ≠ "" then pyGet p "slug"
        else pyGet p "person_slug"
      if pslug ≠ ""
          ∧ (presRows.filterMap (fun row => row.get? idx)).contains pslug then
        some pslug
      else none)

/-- The successful result of sheets_updater._upsert on one tab: a key hit
updates the row in place, a miss appends.  upsertTab below relates this to
the fallible _upsert; every caller in update_all guards the key against
the empty string first, so in update_all the ValueError path of _upsert is
unreachable and this total form is the one that runs. -/
def upsertRows (headers : List String) (keyCol : String) (d : PyDict)
    (rows : List (List String)) : List (List String) :=
  match headers.findIdx? (fun h => decide (h = keyCol)) with
  | none => rows ++ [dict_to_row d headers]
  | some kidx =>
    match findRowIdx rows kidx (pyGet d keyCol) with
    | some i => rows.set i (dict_to_row d headers)
    | none => rows ++ [dict_to_row d headers]

/-- sheets_updater.update_all: upsert the voyage row, the passenger and
media master rows, then the join rows.  The join upserts pass person_slug
and media_slug alone as the key column, exactly as the source does.
Failure (none) is the ValueError for a missing voyage_slug; the inner
upserts cannot fail because each loop skips entries with an empty key. -/
def sheets_update_all (presHeaders : List String) (st : SheetsState)
    (voyage : PyDict) (passengers media : List PyDict)
    (s3_links : List (String × (Option String × Option String))) :
    Option SheetsState :=
  let vslug := pyGet voyage "voyage_slug"
  if vslug = "" then none
  else
    let voyage_row : PyDict :=
      [("voyage_slug", vslug),
       ("title", pyGet voyage "title"),
       ("start_date", pyGet voyage "start_date"),
       ("end_date", pyGet voyage "end_date"),
       ("origin", pyGet voyage "origin"),
       ("destination", pyGet voyage "destination"),
       ("vessel_name", (voyage.lookup "vessel_name").getD "USS Sequoia"),
       ("voyage_type", pyGet voyage "voyage_type"),
       ("summary_markdown",
         if pyGet voyage "summary" ≠ "" then pyGet voyage "summary"
         else pyGet voyage "summary_markdown"),
       ("notes_internal", pyGet voyage "notes_internal"),
       ("source_urls",
         if pyGet voyage "sources" ≠ "" then pyGet voyage "sources"
         else pyGet voyage "source_urls"),
       ("tags", pyGet voyage "tags")]
    let vt := upsertRows VOYAGES_HEADERS "voyage_slug" voyage_row st.voyages
    let pt := passengers.foldl
      (fun rows p =>
        let pslug := if pyGet p "slug" ≠ "" then pyGet p "slug"
          else pyGet p "person_slug"
        let row : PyDict :=
          [("person_slug", pslug),
           ("full_name", pyGet p "full_name"),
           ("role_title", pyGet p "role_title"),
           ("organization", pyGet p "organization"),
           ("birth_year", pyGet p "birth_year"),
           ("death_year", pyGet p "death_year"),
           ("wikipedia_url", pyGet p "wikipedia_url"),
           ("notes_internal", pyGet p "notes_internal"),
           ("tags", pyGet p "tags")]
        if pslug = "" ∨ pyGet p "full_name" = "" then rows
        else upsertRows PASSENGERS_HEADERS "person_slug" row rows)
      st.passengers
    let mt := media.foldl
      (fun rows m =>
        let mslug := pyGet m "slug"
        let s3v := match s3_links.lookup mslug with
          | some (a, b) => (a.getD "", b.getD "")
          | none => (pyGet m "s3_url", pyGet m "thumbnail_s3_url")
        let row : PyDict :=
          [("media_slug", mslug),
           ("title", pyGet m "title"),
           ("media_type", pyGet m "media_type"),
           ("s3_url", s3v.1),
           ("thumbnail_s3_url", s3v.2),
           ("credit", pyGet m "credit"),
           ("date", pyGet m "date"),
           ("description_markdown",
             if pyGet m "description" ≠ "" then pyGet m "description"
             else pyGet m "description_markdown"),
           ("tags", pyGet m "tags"),
           ("copyright_restrictions", pyGet m "copyright_restrictions"),
           ("google_drive_link", pyGet m "google_drive_link")]
        if mslug = "" then rows
        else upsertRows MEDIA_HEADERS "media_slug" row rows)
      st.media
    let vpt := passengers.foldl
      (fun rows p =>
        let pslug := if pyGet p "slug" ≠ "" then pyGet p "slug"
          else pyGet p "person_slug"
        if pslug = "" then rows
        else
          upsertRows VOYAGE_PASSENGERS_HEADERS "person_slug"
            [("voyage_slug", vslug), ("person_slug", pslug),
             ("capacity_role", infer_capacity_role p), ("notes", "")] rows)
      st.voyage_passengers
    let vmt := media.foldl
      (fun rows m =>
        let mslug := pyGet m "slug"
        if mslug = "" then rows
        else
          upsertRows VOYAGE_MEDIA_HEADERS "media_slug"
            [("voyage_slug", vslug), ("media_slug", mslug),
             ("sort_order", match infer_sort_order mslug with
               | some n => toString n
               | none => ""),
             ("notes", "")] rows)
      st.voyage_media
    let vprt := (joinPresSlugs presHeaders st.presidents passengers).foldl
      (fun rows pslug =>
        upsertRows VOYAGE_PRESIDENTS_HEADERS "president_slug"
          [("voyage_slug", vslug), ("president_slug", pslug), ("notes", "")]
          rows)
      st.voyage_presidents
    some { st with
      voyages := vt, passengers := pt, media := mt,
      voyage_passengers := vpt, voyage_media := vmt,
      voyage_presidents := vprt }

/-! ## Database writer (claim C5), from db_updater.py

The database is modelled as in-memory tables; psycopg2 execute becomes a
pure update of the table, the per-voyage transaction becomes an Except
computation whose error is the Python exception message, commit applies
the computed state and rollback returns the original one.  The presidents
sheet read inside the transaction is parameterised by its outcome. -/

/-- db_updater._ns: strip, empty (or missing, which pyGet renders "") to
null. -/
def ns (x : String) : Option String :=
  let s := String.mk (pyStrip x.data)
  if s = "" then none else some s

/-- The regex ^\d{4}-\d{2}-\d{2}$ of db_updater.upsert_all. -/
def isDateYMD (s : String) : Bool :=
  match s.data with
  | [a, b, c, d, '-', e, f, '-', g, h] =>
    a.isDigit && b.isDigit && c.isDigit && d.isDigit && e.isDigit
      && f.isDigit && g.isDigit && h.isDigit
  | _ => false

/-- The regex ^\d{2}:\d{2}(:\d{2})?$ of db_updater.upsert_all. -/
def isTimeHMS (s : String) : Bool :=
  match s.data with
  | [a, b, ':', c, d] => a.isDigit && b.isDigit && c.isDigit && d.isDigit
  | [a, b, ':', c, d, ':', e, f] =>
    a.isDigit && b.isDigit && c.isDigit && d.isDigit && e.isDigit && f.isDigit
  | _ => false

/-- The transaction-local _nd of db_updater.upsert_all: a nonempty value
that is not a YYYY-MM-DD date raises ValueError. -/
def nd (x : String) : Except String (Option String) :=
  match ns x with
  | none => .ok none
  | some s =>
    if isDateYMD s then .ok (some s)
    else .error ("Bad date (YYYY-MM-DD): " ++ s)

/-- The transaction-local _nt of db_updater.upsert_all. -/
def nt (x : String) : Except String (Option String) :=
  match ns x with
  | none => .ok none
  | some s =>
    if isTimeHMS s then .ok (some s)
    else .error ("Bad time (HH:MM[:SS]): " ++ s)

def digitsVal (l : List Char) : Nat :=
  l.foldl (fun a c => a * 10 + (c.toNat - 48)) 0

/-- Python int(s): optional sign around a nonempty digit string after
stripping whitespace, ValueError otherwise. -/
def pyInt (s : String) : Except String Int :=
  let t := pyStrip s.data
  let core : List Char → Except String Nat := fun ds =>
    if ds ≠ [] ∧ ds.all Char.isDigit then .ok (digitsVal ds)
    else .error ("invalid literal for int() with base 10: " ++ s)
  match t with
  | '+' :: rest => (core rest).map (fun n => (n : Int))
  | '-' :: rest => (core rest).map (fun n => -(n : Int))
  | rest => (core rest).map (fun n => (n : Int))

/-- db_updater._arrayify_urls on a string value: split on commas and
whitespace, keep the nonempty parts, null when nothing remains. -/
def arrayify_urls (s : String) : Option (List String) :=
  let t := String.mk (pyStrip s.data)
  if t = "" then none
  else
    let parts := (t.data.splitOnP (fun c => c = ',' || isPySpace c)).filter
      (fun p => ¬p.isEmpty)
    if parts.isEmpty then none else some (parts.map String.mk)

structure PresRow where
  president_slug : String := ""
  full_name : String := ""
  party : Option String := none
  term_start : Option String := none
  term_end : Option String := none
  wikipedia_url : Option String := none
  tags : Option String := none
deriving Repr, DecidableEq

structure VoyageRow where
  voyage_slug : Option String := none
  title : Option String := none
  start_date : Option String := none
  end_date : Option String := none
  start_time : Option String := none
  end_time : Option String := none
  origin : Option String := none
  destination : Option String := none
  vessel_name : Option String := none
  voyage_type : Option String := none
  summary_markdown : Option String := none
  source_urls : Option (List String) := none
  tags : Option String := none
deriving Repr, DecidableEq

structure PersonRow where
  person_slug : Option String := none
  full_name : Option String := none
  role_title : Option String := none
  organization : Option String := none
  birth_year : Option Int := none
  death_year : Option Int := none
  wikipedia_url : Option String := none
  notes_internal : Option String := none
  tags : Option String := none
deriving Repr, DecidableEq

structure MediaRow where
  media_slug : Option String := none
  title : Option String := none
  media_type : Option String := none
  s3_url : Option String := none
  public_derivative_url : Option String := none
  credit : Option String := none
  date : Option String := none
  description_markdown : Option String := none
  tags : Option String := none
  google_drive_link : Option String := none
deriving Repr, DecidableEq

structure VPRow where
  voyage_slug : String := ""
  person_slug : Option String := none
  capacity_role : Option String := none
  notes : Option String := none
deriving Repr, DecidableEq

structure VMRow where
  voyage_slug : String := ""
  media_slug : String := ""
  sort_order : Option Int := none
  notes : Option String := none
deriving Repr, DecidableEq

structure DBState where
  presidents : List PresRow := []
  voyages : List VoyageRow := []
  people : List PersonRow := []
  media : List MediaRow := []
  voyage_passengers : List VPRow := []
  voyage_media : List VMRow := []
deriving Repr, DecidableEq

/-- INSERT ... ON CONFLICT (key) DO UPDATE SET every column: replace the
conflicting row in place, else append. -/
def upsertRow {α : Type} (key : α → α → Bool) (rows : List α) (r : α) :
    List α :=
  match rows.findIdx? (fun x => key x r) with
  | some i => rows.set i r
  | none => rows ++ [r]

/-- The voyage_media upsert keeps the old sort_order when the incoming one
is null (COALESCE(EXCLUDED.sort_order, voyage_media.sort_order)). -/
def upsertVMRow (rows : List VMRow) (r : VMRow) : List VMRow :=
  match rows.findIdx? (fun x =>
      x.voyage_slug == r.voyage_slug && x.media_slug == r.media_slug) with
  | some i =>
    match rows.get? i with
    | some old => rows.set i { r with
        sort_order := match r.sort_order with
          | some n => some n
          | none => old.sort_order }
    | none => rows ++ [r]
  | none => rows ++ [r]

/-- db_updater._upsert_presidents inside the transaction: skipped when
SPREADSHEET_ID is unset or the per-run cache already holds the id; a
failing sheet read raises; otherwise every extracted row is upserted by
president_slug. -/
def upsertPresidents (spreadsheetIdSet presCached : Bool)
    (presRows : Except String (List PresRow)) (db : DBState) :
    Except String DBState :=
  if ¬spreadsheetIdSet then .ok db
  else if presCached then .ok db
  else
    match presRows with
    | .error e => .error e
    | .ok rows => .ok { db with
        presidents := rows.foldl
          (upsertRow (fun x r => x.president_slug == r.president_slug))
          db.presidents }

/-- The body of the per-voyage transaction of db_updater.upsert_all, in
statement order: presidents upsert, voyage normalization and upsert,
people rows, media rows, voyage_passengers, voyage_media.  Any raised
ValueError (bad date, bad time, bad int) or presidents-read failure
aborts the computation. -/
def upsertAllTxn (spreadsheetIdSet presCached : Bool)
    (presRows : Except String (List PresRow))
    (v : PyDict) (ppl med : List PyDict)
    (s3_links : List (String × (Option String × Option String)))
    (vslug : String) (db : DBState) : Except String DBState := do
  let db ← upsertPresidents spreadsheetIdSet presCached presRows db
  let source_urls_list := arrayify_urls
    (if pyGet v "source_urls" ≠ "" then pyGet v "source_urls"
     else pyGet v "sources")
  let start_date ← nd (pyGet v "start_date")
  let end_date ← nd (pyGet v "end_date")
  let start_time ← nt (pyGet v "start_time")
  let end_time ← nt (pyGet v "end_time")
  let vrow : VoyageRow :=
    { voyage_slug := ns (pyGet v "voyage_slug"),
      title := ns (pyGet v "title"),
      start_date := start_date, end_date := end_date,
      start_time := start_time, end_time := end_time,
      origin := ns (pyGet v "origin"),
      destination := ns (pyGet v "destination"),
      vessel_name := ns (pyGet v "vessel_name"),
      voyage_type := ns (pyGet v "voyage_type"),
      summary_markdown := ns
        (if pyGet v "summary_markdown" ≠ "" then pyGet v "summary_markdown"
         else pyGet v "summary"),
      source_urls := source_urls_list,
      tags := ns (pyGet v "tags") }
  let db := { db with
    voyages := upsertRow (fun x r => x.voyage_slug == r.voyage_slug)
      db.voyages vrow }
  let db ← if ppl.isEmpty then pure db else do
    let prows ← ppl.mapM (fun p => do
      let birth ← match ns (pyGet p "birth_year") with
        | none => pure (none : Option Int)
        | some _ => (pyInt (pyGet p "birth_year")).map some
      let death ← match ns (pyGet p "death_year") with
        | none => pure (none : Option Int)
        | some _ => (pyInt (pyGet p "death_year")).map some
      pure { person_slug := ns (pyGet p "slug"),
             full_name := ns (pyGet p "full_name"),
             role_title := ns (pyGet p "role_title"),
             organization := ns (pyGet p "organization"),
             birth_year := birth, death_year := death,
             wikipedia_url := ns (pyGet p "wikipedia_url"),
             notes_internal := none,
             tags := ns (pyGet p "tags") : PersonRow })
    pure { db with
      people := prows.foldl
        (upsertRow (fun x r => x.person_slug == r.person_slug)) db.people }
  let db ← if med.isEmpty then pure db else do
    let mrows ← med.mapM (fun m => do
      let mslug := ns (pyGet m "slug")
      let s3pair := match mslug with
        | some sl => (s3_links.lookup sl).getD (none, none)
        | none => (none, none)
      let date ← nd (pyGet m "date")
      pure { media_slug := mslug,
             title := ns (pyGet m "title"),
             media_type := ns (pyGet m "media_type"),
             s3_url := s3pair.1.bind (fun s => ns s),
             public_derivative_url := s3pair.2.bind (fun s => ns s),
             credit := ns (pyGet m "credit"),
             date := date,
             description_markdown := ns
               (if pyGet m "description" ≠ "" then pyGet m "description"
                else pyGet m "description_markdown"),
             tags := ns (pyGet m "tags"),
             google_drive_link := ns (pyGet m "google_drive_link") : MediaRow })
    pure { db with
      media := mrows.foldl
        (upsertRow (fun x r => x.media_slug == r.media_slug)) db.media }
  let db :=
    if ppl.isEmpty then db
    else { db with
      voyage_passengers := (ppl.map (fun p =>
          { voyage_slug := vslug,
            person_slug := ns (pyGet p "slug"),
            capacity_role := ns (pyGet p "capacity_role"),
            notes := none : VPRow })).foldl
        (upsertRow (fun x r =>
          x.voyage_slug == r.voyage_slug && x.person_slug == r.person_slug))
        db.voyage_passengers }
  let db :=
    if med.isEmpty then db
    else { db with
      voyage_media := (med.map (fun m =>
          let mslug := (ns (pyGet m "slug")).getD ""
          let lastSeg := (mslug.data.reverse.takeWhile (fun c => c ≠ '-')).reverse
          let sort : Option Int :=
            if mslug.data.contains '-' ∧ ¬lastSeg.isEmpty
                ∧ lastSeg.all Char.isDigit then
              some (digitsVal lastSeg)
            else none
          { voyage_slug := vslug, media_slug := mslug,
            sort_order := sort, notes := none : VMRow })).foldl
        upsertVMRow db.voyage_media }
  pure db

/-- db_updater.upsert_all: extract the voyage slug (a missing key is a
KeyError before the connection is opened), run the transaction; on success
commit and log completion, on any exception roll back (the returned state
is the incoming one), log the error with the voyage slug, and re-raise. -/
def upsert_all (spreadsheetIdSet presCached : Bool)
    (presRows : Except String (List PresRow))
    (v : PyDict) (ppl med : List PyDict)
    (s3_links : List (String × (Option String × Option String)))
    (db : DBState) : DBState × Except String Unit × List String :=
  match v.lookup "voyage_slug" with
  | none => (db, .error "KeyError: voyage_slug", [])
  | some vslug =>
    match upsertAllTxn spreadsheetIdSet presCached presRows v ppl med
        s3_links vslug db with
    | .ok db' => (db', .ok (), ["DB upsert complete for voyage " ++ vslug])
    | .error e =>
      (db, .error e, ["DB upsert failed for voyage " ++ vslug ++ ": " ++ e])

/-! ## Retry harness (claim C7), from db_updater._gapi_with_retry

The remote call is an oracle giving the outcome of each attempt, the
random jitter is an oracle stream in [0, 1), and sleeping is recorded as
the list of computed durations.  The harness returns the final outcome,
the number of calls made and the sleeps performed. -/

/-- A Python exception as the retry loop sees it: an HttpError with an
optional status code and a message, or any other exception. -/
inductive PyExc where
  | http (status : Option Nat) (msg : String)
  | other (name msg : String)
deriving Repr, DecidableEq

/-- The HttpError classification of _gapi_with_retry: status 429, 500,
502, 503 or 504, or a lowercased message containing ratelimit, rate limit
or userlimit. -/
def isRetryableHttp (status : Option Nat) (msg : String) : Bool :=
  let statusHit := match status with
    | some s => s = 429 || s = 500 || s = 502 || s = 503 || s = 504
    | none => false
  if statusHit then true
  else
    let m := msg.data.map Char.toLower
    strIn "ratelimit".data m || strIn "rate limit".data m
      || strIn "userlimit".data m

/-- Is the exception retried by _gapi_with_retry?  HttpErrors use the
classification; every other exception falls into the second except branch,
which always retries. -/
def excRetryable : PyExc → Bool
  | .http st msg => isRetryableHttp st msg
  | .other _ _ => true

/-- The backoff sleep of _gapi_with_retry:
min(BACKOFF_MAX, BACKOFF_BASE * 2^attempt * (0.5 + random())). -/
def backoffSleep (base bmax : ℚ) (rand : Nat → ℚ) (attempt : Nat) : ℚ :=
  min bmax (base * 2 ^ attempt * (1/2 + rand attempt))

/-- The loop of _gapi_with_retry, structurally recursive on the number of
iterations left (maxRetries + 1 - attempt). -/
def gapiGo {α : Type} (maxRetries : Nat) (base bmax : ℚ)
    (calls : Nat → Except PyExc α) (rand : Nat → ℚ) :
    Nat → Nat → Except PyExc α × Nat × List ℚ
  | _, 0 => (.error (.other "RuntimeError" "loop exhausted"), 0, [])
  | attempt, rem + 1 =>
    match calls attempt with
    | .ok v => (.ok v, 1, [])
    | .error e =>
      if ¬(excRetryable e = true) ∨ maxRetries ≤ attempt then (.error e, 1, [])
      else
        let s := backoffSleep base bmax rand attempt
        let r := gapiGo maxRetries base bmax calls rand (attempt + 1) rem
        (r.1, r.2.1 + 1, s :: r.2.2)

/-- db_updater._gapi_with_retry: run the call with up to maxRetries
retries. -/
def gapi_with_retry {α : Type} (maxRetries : Nat) (base bmax : ℚ)
    (calls : Nat → Except PyExc α) (rand : Nat → ℚ) :
    Except PyExc α × Nat × List ℚ :=
  gapiGo maxRetries base bmax calls rand 0 (maxRetries + 1)

/-! ## Document parser (claim C3), from parser.py

The document text itself comes from the remote Google Docs reader
(_read_doc_as_text) and the full_name → slug map from the presidents
sheet (_read_presidents_fullname_to_slug); both are inputs here.  The
embedding takes the result of str.splitlines() on the BOM-stripped text:
a list of lines without newline terminators. -/

/-- str.strip() on a String. -/
def pyStripS (s : String) : String := String.mk (pyStrip s.data)

/-- str.lstrip(). -/
def pyLstripS (s : String) : String := String.mk (s.data.dropWhile isPySpace)

/-- str.rstrip(). -/
def pyRstripS (s : String) : String :=
  String.mk (s.data.reverse.dropWhile isPySpace).reverse

/-- str.rstrip("\n"). -/
def rstripNl (s : String) : String :=
  String.mk (s.data.reverse.dropWhile (fun c => c = '\n')).reverse

/-- str.lower(). -/
def pyLower (s : String) : String := String.mk (s.data.map Char.toLower)

/-- str.startswith(pre). -/
def startsWithS (pre s : String) : Bool := pre.data.isPrefixOf s.data

/-- Python dict assignment d[k] = v: overwrite in place, else append. -/
def pySet : PyDict → String → String → PyDict
  | [], k, v => [(k, v)]
  | (k', v') :: rest, k, v =>
    if k' = k then (k, v) :: rest else (k', v') :: pySet rest k v

/-- Python dict.setdefault(k, v): insert only when the key is absent. -/
def pySetdefault (d : PyDict) (k v : String) : PyDict :=
  match d.lookup k with
  | some _ => d
  | none => d ++ [(k, v)]

/-- Python `a or b` on strings: b exactly when a is falsy (empty). -/
def pyOr (a b : String) : String := if a = "" then b else a

/-- The group of _HEADER_RE after `##\s+`: the whitespace-free word must
be one of the four section names (case-insensitively) and only whitespace
may follow; returns the .title()-normalised name. -/
def headerWord (l : List Char) : Option String :=
  let low := l.map Char.toLower
  let word := low.takeWhile (fun c => !isPySpace c)
  let rest := low.dropWhile (fun c => !isPySpace c)
  if rest.all isPySpace then
    if word = "president".data then some "President"
    else if word = "voyage".data then some "Voyage"
    else if word = "passengers".data then some "Passengers"
    else if word = "media".data then some "Media"
    else none
  else none

/-- _HEADER_RE.match: ^\s*##\s+(President|Voyage|Passengers|Media)\s*$,
case-insensitive. -/
def headerMatch (ln : String) : Option String :=
  match ln.data.dropWhile isPySpace with
  | '#' :: '#' :: c :: rest =>
    if isPySpace c then headerWord ((c :: rest).dropWhile isPySpace) else none
  | _ => none

/-- One line of the _partition_sections loop: a header flushes the
current section and opens a new one; other lines accumulate into the
current section (lines before the first header are dropped). -/
def partitionStep (acc : List (String × List String) × Option String × List String)
    (ln : String) : List (String × List String) × Option String × List String :=
  match headerMatch ln with
  | some nm =>
    match acc.2.1 with
    | some n => (acc.1 ++ [(n, acc.2.2)], some nm, [])
    | none => (acc.1, some nm, [])
  | none =>
    match acc.2.1 with
    | some n => (acc.1, some n, acc.2.2 ++ [ln])
    | none => (acc.1, none, acc.2.2)

/-- _partition_sections on the document lines. -/
def partitionSections (lines : List String) : List (String × List String) :=
  let r := lines.foldl partitionStep ([], none, [])
  match r.2.1 with
  | some n => r.1 ++ [(n, r.2.2)]
  | none => r.1

/-- A continuation line of a `|` multiline value in _parse_kv_block:
indented by two spaces or a tab, or blank. -/
def contLine (ln : String) : Bool :=
  startsWithS "  " ln || startsWithS "\t" ln || pyStripS ln = ""

/-- The while loop of _parse_kv_block.  The fuel argument only makes the
recursion structural: each step consumes at least one line, so
lines.length + 1 never runs out. -/
def parseKVGo : Nat → PyDict → List String → PyDict
  | 0, acc, _ => acc
  | _ + 1, acc, [] => acc
  | fuel + 1, acc, raw :: rest =>
    let s := rstripNl raw
    if pyStripS s = "" then parseKVGo fuel acc rest
    else if !s.data.contains ':' then parseKVGo fuel acc rest
    else
      let key := pyStripS (String.mk (s.data.takeWhile (fun c => c ≠ ':')))
      let val := pyStripS (String.mk ((s.data.dropWhile (fun c => c ≠ ':')).drop 1))
      if val = "|" then
        let buf := (rest.takeWhile contLine).map pyLstripS
        let mval := pyRstripS (String.intercalate "\n" buf)
        parseKVGo fuel (pySet acc key mval) (rest.dropWhile contLine)
      else
        parseKVGo fuel (pySet acc key val) rest

/-- _parse_kv_block. -/
def parse_kv_block (lines : List String) : PyDict :=
  parseKVGo (lines.length + 1) [] lines

/-- One line of the _split_entries_block loop. -/
def entriesStep (acc : List (List String) × List String) (ln : String) :
    List (List String) × List String :=
  if startsWithS "- " (pyStripS ln) then
    ((if acc.2 = [] then acc.1 else acc.1 ++ [acc.2]),
     [String.mk ((pyStripS ln).data.drop 2)])
  else if startsWithS "  " ln || startsWithS "\t" ln then
    (acc.1, acc.2 ++ [pyStripS ln])
  else if pyStripS ln = "" then
    (acc.1, acc.2 ++ [""])
  else
    ((if acc.2 = [] then acc.1 else acc.1 ++ [acc.2]), [])

/-- _split_entries_block. -/
def split_entries_block (lines : List String) : List (List String) :=
  let r := lines.foldl entriesStep ([], [])
  if r.2 = [] then r.1 else r.1 ++ [r.2]

/-- _first_nonempty: (s or "").strip(). -/
def first_nonempty (s : String) : String := pyStripS s

/-- _ensure_pres_slug. -/
def ensure_pres_slug (p : PyDict) : String :=
  let pres_slug := first_nonempty (pyGet p "president_slug")
  if pres_slug ≠ "" then pres_slug
  else
    let full := first_nonempty (pyGet p "full_name")
    if full ≠ "" then slugify full else "unknown-president"

/-- _descriptor_from_title with the default max_words = 5: slugify the
first five whitespace-separated words of the title ("voyage" if none). -/
def descriptor_from_title (title : String) : String :=
  let words := (List.splitOnP isPySpace (pyStripS title).data).filter
    (fun w => w ≠ [])
  if words = [] then "voyage"
  else slugify (String.intercalate " " ((words.take 5).map String.mk))

/-- One bundle of parse_doc_multi. -/
structure Bundle where
  voyage : PyDict
  passengers : List PyDict
  media : List PyDict
deriving Repr, DecidableEq

/-- The mutable state of the parse_doc_multi loop. -/
structure ParseState where
  presidents : List PyDict
  bundles : List Bundle
  current_pres : Option PyDict
  current_voyage : Option PyDict
  current_passengers : List PyDict
  current_media : List PyDict
deriving Repr, DecidableEq

/-- The president-context attachment done both in the Voyage handler and
at the top of _flush_voyage: setdefault president and president_slug. -/
def attachPres (pres : Option PyDict) (v : PyDict) : PyDict :=
  match pres with
  | some p =>
    pySetdefault (pySetdefault v "president" (pyGet p "full_name"))
      "president_slug" (ensure_pres_slug p)
  | none => v

/-- The voyage dict exactly as _flush_voyage bundles it: president
context attached, president_slug filled from the sheet map (else
slugified) when empty, and voyage_slug set to
{start_date}-{president_slug}-{descriptor} whenever start_date,
president_slug and title are all nonempty — with no disambiguation of
any kind (m is the sheet full_name → slug map). -/
def flushVoyageDict (m : PyDict) (pres : Option PyDict) (v : PyDict) : PyDict :=
  let v1 := attachPres pres v
  let sd := first_nonempty (pyGet v1 "start_date")
  let title := first_nonempty (pyGet v1 "title")
  let p0 := first_nonempty (pyGet v1 "president_slug")
  let ps := if p0 = "" ∧ pyGet v1 "president" ≠ "" then
      (m.lookup (pyLower (pyGet v1 "president"))).getD
        (slugify (pyGet v1 "president"))
    else p0
  let v2 := if p0 = "" ∧ pyGet v1 "president" ≠ "" then
      pySet v1 "president_slug" ps
    else v1
  if sd ≠ "" ∧ ps ≠ "" ∧ title ≠ "" then
    pySet v2 "voyage_slug" (sd ++ "-" ++ ps ++ "-" ++ descriptor_from_title title)
  else v2

/-- The (start_date, president_slug, title) triple _flush_voyage feeds
into the voyage_slug, read off the same way the code computes it. -/
def flushSlugInput (m : PyDict) (pres : Option PyDict) (v : PyDict) :
    String × String × String :=
  let v1 := attachPres pres v
  let p0 := first_nonempty (pyGet v1 "president_slug")
  (first_nonempty (pyGet v1 "start_date"),
   (if p0 = "" ∧ pyGet v1 "president" ≠ "" then
      (m.lookup (pyLower (pyGet v1 "president"))).getD
        (slugify (pyGet v1 "president"))
    else p0),
   first_nonempty (pyGet v1 "title"))

/-- _flush_voyage on the parse state.  Python's `if not current_voyage`
returns early both when no voyage is open and when the open voyage dict
is empty (falsy). -/
def flush_voyage (m : PyDict) (st : ParseState) : ParseState :=
  match st.current_voyage with
  | none => st
  | some v =>
    if v = [] then st
    else
      { st with
        bundles := st.bundles
          ++ [{ voyage := flushVoyageDict m st.current_pres v,
                passengers := st.current_passengers,
                media := st.current_media }],
        current_voyage := none,
        current_passengers := [],
        current_media := [] }

/-- The President section handler of parse_doc_multi. -/
def handlePresident (m : PyDict) (st : ParseState) (lines : List String) :
    ParseState :=
  let st1 := flush_voyage m st
  let pdata := parse_kv_block lines
  let full_name := first_nonempty (pyOr (pyOr (pyGet pdata "full_name")
    (pyGet pdata "name")) (pyGet pdata "president"))
  let ps0 := first_nonempty (pyGet pdata "president_slug")
  let pres_slug := if ps0 = "" ∧ full_name ≠ "" then
      (m.lookup (pyLower full_name)).getD (slugify full_name)
    else ps0
  let cp : PyDict :=
    [("president_slug", pyOr pres_slug "unknown-president"),
     ("full_name", full_name),
     ("party", first_nonempty (pyGet pdata "party")),
     ("term_start", first_nonempty (pyGet pdata "term_start")),
     ("term_end", first_nonempty (pyGet pdata "term_end")),
     ("wikipedia_url", first_nonempty (pyGet pdata "wikipedia_url")),
     ("tags", first_nonempty (pyGet pdata "tags"))]
  let newPres := if pyGet cp "president_slug" ≠ ""
      ∧ ¬ st1.presidents.any (fun p =>
          pyGet p "president_slug" = pyGet cp "president_slug") then
      st1.presidents ++ [cp]
    else st1.presidents
  { st1 with presidents := newPres, current_pres := some cp }

/-- One section of the parse_doc_multi loop. -/
def sectionStep (m : PyDict) (st : ParseState) (sec : String × List String) :
    ParseState :=
  if sec.1 = "President" then handlePresident m st sec.2
  else if sec.1 = "Voyage" then
    let st1 := flush_voyage m st
    { st1 with
      current_voyage := some (attachPres st1.current_pres (parse_kv_block sec.2)) }
  else if sec.1 = "Passengers" then
    match st.current_voyage with
    | none => st
    | some _ =>
      { st with current_passengers := (split_entries_block sec.2).map parse_kv_block }
  else if sec.1 = "Media" then
    match st.current_voyage with
    | none => st
    | some _ =>
      { st with current_media := (split_entries_block sec.2).map parse_kv_block }
  else st

/-- parse_doc_multi on the splitlines of the (BOM-stripped) document
text, with the presidents-sheet full_name → slug map m.  Returns
(presidents, bundles). -/
def parse_doc_multi (m : PyDict) (docLines : List String) :
    List PyDict × List Bundle :=
  let st := (partitionSections docLines).foldl (sectionStep m)
    { presidents := [], bundles := [], current_pres := none,
      current_voyage := none, current_passengers := [], current_media := [] }
  let st2 := flush_voyage m st
  (st2.presidents, st2.bundles)

/-! ## Orchestrator per-voyage loop (claim C6), from main.py

The loop is modelled in upsert mode (SYNC_MODE = "upsert"), where every
reconciler prune branch is skipped and the deletion counters are the
literal "0" cells.  validator.validate_bundle, drive_sync
.process_all_media and db_updater.upsert_all are remote/effectful and
enter as per-voyage oracles; s3_links is the list of
(media_slug, original_url, public_url).  Each voyage yields its
ingest_log row, the LOG.warning messages it emits and its contribution
to total_errors. -/

/-- _classify_status. -/
def classify_status (validation_errors media_errors : List String) : String :=
  if validation_errors ≠ [] then "ERROR"
  else if media_errors ≠ [] then "WITH_WARNINGS"
  else "OK"

/-- Python s[:250]. -/
def truncate250 (s : String) : String := String.mk (s.data.take 250)

/-- One iteration of the per-voyage loop of main() in upsert mode, given
this voyage's validation errors, s3_links, media errors and DB outcome.
Returns (ingest_log row, LOG.warning messages, errors added to
total_errors). -/
def processVoyage (ts docId : String) (dryRun : Bool) (idx : Nat) (b : Bundle)
    (valE : List String) (links : List (String × String × String))
    (merrs : List String) (dbr : Except String Unit) :
    List String × List String × Nat :=
  let vslug := pyStripS (pyGet b.voyage "voyage_slug")
  let slugCell := pyOr vslug ("[bundle#" ++ toString idx ++ "]")
  let dryCell := if dryRun then "TRUE" else "FALSE"
  if valE ≠ [] then
    ([ts, docId, slugCell, "ERROR",
      toString valE.length, "0",
      toString b.media.length,
      "0", "0",
      "upsert", dryCell,
      "0", "0", "0", "0", "0", "0", "0", "0",
      truncate250 (valE.head?.getD "")],
     [], valE.length)
  else
    let warns := merrs.map (fun me => "Media issue: " ++ me)
    let dbWarns := match dbr with
      | .ok _ => []
      | .error e => ["DB upsert failed for " ++ vslug ++ ": " ++ e]
    let status := classify_status valE merrs
    let note := merrs.head?.getD "OK"
    ([ts, docId, slugCell, status,
      "0", toString merrs.length,
      toString b.media.length,
      toString (links.filter (fun l => l.2.1 ≠ "")).length,
      toString (links.filter (fun l => l.2.2 ≠ "")).length,
      "upsert", dryCell,
      "0", "0", "0", "0", "0", "0", "0", "0",
      truncate250 note],
     warns ++ dbWarns, 0)

/-- The whole per-voyage loop of main() in upsert mode: bundles are
numbered from 1 and each produces exactly one log row; the fold collects
(log_rows, warnings, total_errors). -/
def mainRows (ts docId : String) (dryRun : Bool)
    (valErrs : Nat → List String)
    (mediaRes : Nat → List (String × String × String) × List String)
    (dbRes : Nat → Except String Unit) :
    Nat → List Bundle → List (List String) × List String × Nat
  | _, [] => ([], [], 0)
  | idx, b :: rest =>
    let r := processVoyage ts docId dryRun idx b (valErrs idx)
      (mediaRes idx).1 (mediaRes idx).2 (dbRes idx)
    let rs := mainRows ts docId dryRun valErrs mediaRes dbRes (idx + 1) rest
    (r.1 :: rs.1, r.2.1 ++ rs.2.1, r.2.2 + rs.2.2)

/-! ## Object-store effects of a run (claim C2), from drive_sync.py and
main.py

The object store is a set of (bucket, key) pairs; every S3 call of
drive_sync.process_all_media is recorded as an operation.  Remote
outcomes (downloads, upload/copy/delete failures caught by the
surrounding try/except blocks) and the media type / extension detection
— which consults the Python mimetypes registry — enter as per-item
oracle inputs (ItemIO).  reconciler.py is absent from src/, so the two
reconciler entry points main() calls are modelled from the spec. -/

/-- One object-store call. -/
inductive S3Op where
  | put (bucket key : String)
  | copy (srcBucket srcKey dstBucket dstKey : String)
  | del (bucket key : String)
deriving Repr, DecidableEq

/-- The remote outcomes one media item can encounter in
process_all_media: success of the move-on-rename copy/delete calls, of
the derivative copy/delete calls, drive-id parse and download success,
the detected media type and extension, whether the downloaded blob is
nonempty, original-upload success, and how many derivative uploads
succeed (0, 1, or 2). -/
structure ItemIO where
  mvCopyOk : Bool
  mvDelOk : Bool
  prevCopyOk : Bool
  prevDelOk : Bool
  thCopyOk : Bool
  thDelOk : Bool
  driveIdOk : Bool
  dlOk : Bool
  dlType : String
  dlExt : String
  blobNonempty : Bool
  upOrigOk : Bool
  derivStage : Nat
deriving Repr, DecidableEq

/-- os.path.splitext(k)[1].lstrip("."): the extension of the basename
after its last dot, empty when the basename has no dot or only leading
dots before it. -/
def splitextExt (k : String) : String :=
  let base := (k.data.reverse.takeWhile (fun c => c ≠ '/')).reverse
  let extRev := base.reverse.takeWhile (fun c => c ≠ '.')
  let pre := base.take (base.length - extRev.length - 1)
  if base.contains '.' ∧ pre.any (fun c => c ≠ '.') then String.mk extRev.reverse
  else ""

/-- The copy/delete calls of the move-on-rename block once the move is
decided: copy the original (failure aborts the block), delete the old
original (failure aborts the block after the copy), then best-effort
copy+delete of the two old derivatives.  Returns (ops, moved): moved is
false when the original copy or delete raised, in which case control
falls through to the download path. -/
def moveOps (privB pubB oldB oldK newK oldPrev oldTh newPrev newTh : String)
    (io : ItemIO) : List S3Op × Bool :=
  if io.mvCopyOk then
    if io.mvDelOk then
      ([S3Op.copy oldB oldK privB newK, S3Op.del oldB oldK]
        ++ (if io.prevCopyOk then
              [S3Op.copy pubB oldPrev pubB newPrev]
                ++ (if io.prevDelOk then [S3Op.del pubB oldPrev] else [])
            else [])
        ++ (if io.thCopyOk then
              [S3Op.copy pubB oldTh pubB newTh]
                ++ (if io.thDelOk then [S3Op.del pubB oldTh] else [])
            else []),
       true)
    else ([S3Op.copy oldB oldK privB newK], false)
  else ([], false)

/-- The move-on-rename attempt of process_all_media for one item:
only taken when the spreadsheet link map has a row for the same
(lowercased) link with a nonempty s3_url of the form s3://bucket/key,
and the newly computed canonical original key differs from the old key.
Every other outcome (no row, unexpected URL form, empty old key, key
unchanged, or a raised copy/delete) emits its partial ops with
moved = false. -/
def moveAttempt (known : List String) (privB pubB : String)
    (linkMap : List (String × PyDict)) (vslug : String) (m : PyDict)
    (io : ItemIO) : List S3Op × Bool :=
  let mslug := pyStripS (pyGet m "slug")
  let credit := pyStripS (pyGet m "credit")
  let link := pyStripS (pyGet m "google_drive_link")
  match linkMap.lookup (pyLower link) with
  | none => ([], false)
  | some ex =>
    if pyGet ex "s3_url" ≠ "" then
      let old_s3 := pyGet ex "s3_url"
      if startsWithS "s3://" old_s3 then
        let rest5 := old_s3.data.drop 5
        if rest5.contains '/' then
          let old_bucket := String.mk (rest5.takeWhile (fun c => c ≠ '/'))
          let old_key := String.mk ((rest5.dropWhile (fun c => c ≠ '/')).drop 1)
          let old_ext := if old_key ≠ "" then splitextExt old_key else ""
          let mtype_current := pyLower (pyStripS (pyOr (pyGet m "media_type")
            (pyOr (pyGet ex "media_type") "other")))
          let ext_for_new := pyOr old_ext "bin"
          let new_orig_key := s3_key_for_original known vslug mslug
            mtype_current ext_for_new credit
          if old_key ≠ "" ∧ new_orig_key ≠ old_key then
            let vs_old := pyOr (pyGet ex "voyage_slug") vslug
            let pres_old := president_from_voyage_slug known vs_old
            let source_old := normalize_source (pyOr (pyGet ex "credit") credit)
            let mtype_old := pyOr (pyGet ex "media_type") (pyOr mtype_current "other")
            let old_ms := pyOr (pyGet ex "media_slug") mslug
            let old_prev := "media/" ++ pres_old ++ "/" ++ source_old ++ "/"
              ++ vs_old ++ "/" ++ mtype_old ++ "/" ++ old_ms ++ "_preview.jpg"
            let old_th := "media/" ++ pres_old ++ "/" ++ source_old ++ "/"
              ++ vs_old ++ "/" ++ mtype_old ++ "/" ++ old_ms ++ "_thumb.jpg"
            let new_prev := s3_key_for_derivative known vslug mslug
              mtype_current credit "preview"
            let new_th := s3_key_for_derivative known vslug mslug
              mtype_current credit "thumb"
            moveOps privB pubB old_bucket old_key new_orig_key
              old_prev old_th new_prev new_th io
          else ([], false)
        else ([], false)
      else ([], false)
    else ([], false)

/-- The (bucket, key) pairs the move-on-rename block of one item may
delete: the old original and the two old derivative keys, and only when
an existing row for the same link carries an s3://bucket/key URL whose
nonempty key differs from the newly computed canonical key.  (For an
item the loop skips, this over-approximates by ignoring the missing
slug/link guard.) -/
def itemMoveDeleteKeys (known : List String) (pubB : String)
    (linkMap : List (String × PyDict)) (vslug : String) (m : PyDict) :
    List (String × String) :=
  let mslug := pyStripS (pyGet m "slug")
  let credit := pyStripS (pyGet m "credit")
  let link := pyStripS (pyGet m "google_drive_link")
  match linkMap.lookup (pyLower link) with
  | none => []
  | some ex =>
    if pyGet ex "s3_url" ≠ "" then
      let old_s3 := pyGet ex "s3_url"
      if startsWithS "s3://" old_s3 then
        let rest5 := old_s3.data.drop 5
        if rest5.contains '/' then
          let old_bucket := String.mk (rest5.takeWhile (fun c => c ≠ '/'))
          let old_key := String.mk ((rest5.dropWhile (fun c => c ≠ '/')).drop 1)
          let old_ext := if old_key ≠ "" then splitextExt old_key else ""
          let mtype_current := pyLower (pyStripS (pyOr (pyGet m "media_type")
            (pyOr (pyGet ex "media_type") "other")))
          let ext_for_new := pyOr old_ext "bin"
          let new_orig_key := s3_key_for_original known vslug mslug
            mtype_current ext_for_new credit
          if old_key ≠ "" ∧ new_orig_key ≠ old_key then
            let vs_old := pyOr (pyGet ex "voyage_slug") vslug
            let pres_old := president_from_voyage_slug known vs_old
            let source_old := normalize_source (pyOr (pyGet ex "credit") credit)
            let mtype_old := pyOr (pyGet ex "media_type") (pyOr mtype_current "other")
            let old_ms := pyOr (pyGet ex "media_slug") mslug
            let old_prev := "media/" ++ pres_old ++ "/" ++ source_old ++ "/"
              ++ vs_old ++ "/" ++ mtype_old ++ "/" ++ old_ms ++ "_preview.jpg"
            let old_th := "media/" ++ pres_old ++ "/" ++ source_old ++ "/"
              ++ vs_old ++ "/" ++ mtype_old ++ "/" ++ old_ms ++ "_thumb.jpg"
            [(old_bucket, old_key), (pubB, old_prev), (pubB, old_th)]
          else []
        else []
      else []
    else []

/-- The upload part of the download path: PUT the original (when the
put call succeeds) and, for a nonempty image blob, the derivative PUTs
that succeed before the first raised call. -/
def uploadOps (known : List String) (privB pubB vslug mslug credit : String)
    (m : PyDict) (io : ItemIO) : List S3Op :=
  let mtype := pyOr (pyLower (pyStripS (pyGet m "media_type"))) io.dlType
  let orig_key := s3_key_for_original known vslug mslug mtype io.dlExt credit
  let prev_key := s3_key_for_derivative known vslug mslug mtype credit "preview"
  let th_key := s3_key_for_derivative known vslug mslug mtype credit "thumb"
  (if io.upOrigOk then [S3Op.put privB orig_key] else [])
    ++ (if mtype = "image" ∧ io.blobNonempty then
          (if io.derivStage = 0 then []
           else if io.derivStage = 1 then [S3Op.put pubB prev_key]
           else [S3Op.put pubB prev_key, S3Op.put pubB th_key])
        else [])

/-- The download path: Drive links (containing /file/d/) need a valid
file id and a successful download, Dropbox links (host contains
dropbox.com after lowercasing) a successful download; anything else is
an unsupported link.  Failures emit no object-store calls. -/
def downloadOps (known : List String) (privB pubB vslug mslug credit : String)
    (m : PyDict) (link : String) (io : ItemIO) : List S3Op :=
  if strIn "/file/d/".data link.data then
    if io.driveIdOk ∧ io.dlOk then uploadOps known privB pubB vslug mslug credit m io
    else []
  else if strIn "dropbox.com".data (pyLower link).data then
    if io.dlOk then uploadOps known privB pubB vslug mslug credit m io
    else []
  else []

/-- The object-store calls of one iteration of the process_all_media
loop: items without slug or link are skipped; a completed move handles
the item; otherwise the partial move ops are followed by the download
path. -/
def processItemOps (known : List String) (privB pubB : String)
    (linkMap : List (String × PyDict)) (vslug : String) (m : PyDict)
    (io : ItemIO) : List S3Op :=
  let mslug := pyStripS (pyGet m "slug")
  let credit := pyStripS (pyGet m "credit")
  let link := pyStripS (pyGet m "google_drive_link")
  if mslug = "" ∨ link = "" then []
  else
    let mv := moveAttempt known privB pubB linkMap vslug m io
    if mv.2 then mv.1
    else mv.1 ++ downloadOps known privB pubB vslug mslug credit m link io

/-- The object-store calls of drive_sync.process_all_media over the
item list, items numbered from 1 for their oracles. -/
def processAllMediaOps (known : List String) (privB pubB : String)
    (linkMap : List (String × PyDict)) (vslug : String) (ios : Nat → ItemIO) :
    Nat → List PyDict → List S3Op
  | _, [] => []
  | i, m :: rest =>
    processItemOps known privB pubB linkMap vslug m (ios i)
      ++ processAllMediaOps known privB pubB linkMap vslug ios (i + 1) rest

/-- Apply one object-store call to the set of present (bucket, key)
pairs: put and copy add a key (copy only when its source exists), delete
removes one. -/
def applyOp (st : List (String × String)) : S3Op → List (String × String)
  | .put b k => if (b, k) ∈ st then st else st ++ [(b, k)]
  | .copy sb sk db dk =>
    if (sb, sk) ∈ st then (if (db, dk) ∈ st then st else st ++ [(db, dk)])
    else st
  | .del b k => st.filter (fun p => p ≠ (b, k))

/-- Apply a call sequence. -/
def applyOps (st : List (String × String)) (ops : List S3Op) :
    List (String × String) :=
  ops.foldl applyOp st

/-- Modelled from the spec: the global prune of voyages missing from
the document "runs on the DB and spreadsheet only; the object store is
never pruned globally" (§4.9), so its effect on the object-store key
set is the identity (reconciler.py is absent from src/). -/
def prune_voyages_missing_from_doc_s3 (desiredVoyageSlugs : List String)
    (st : List (String × String)) : List (String × String) := st

/-- Modelled from the spec: the per-voyage reconciliation removes join
rows and orphaned master rows in the database and spreadsheet (§4.9),
and the move-on-rename copy+delete "is the only object-store deletion
path in the entire system" (§4.5) — "No other deletion paths exist"
(§4.6) — so the per-voyage prune leaves the object-store key set
unchanged (reconciler.py is absent from src/). -/
def diff_and_prune_s3_keys (vslug : String) (media : List PyDict)
    (st : List (String × String)) : List (String × String) := st

/-- The per-voyage loop of main() as it touches the object store:
process_all_media for the voyage's items, then (in prune mode) the
per-voyage S3 reconciliation. -/
def runS3 (known : List String) (privB pubB : String)
    (linkMap : List (String × PyDict)) (ios : Nat → Nat → ItemIO) :
    Nat → List (String × List PyDict) → List (String × String) →
      List (String × String)
  | _, [], st => st
  | v, (vslug, items) :: rest, st =>
    let st1 := applyOps st
      (processAllMediaOps known privB pubB linkMap vslug (ios v) 1 items)
    let st2 := diff_and_prune_s3_keys vslug items st1
    runS3 known privB pubB linkMap ios (v + 1) rest st2

/-- All object-store calls the per-voyage loop makes. -/
def runOps (known : List String) (privB pubB : String)
    (linkMap : List (String × PyDict)) (ios : Nat → Nat → ItemIO) :
    Nat → List (String × List PyDict) → List S3Op
  | _, [] => []
  | v, (vslug, items) :: rest =>
    processAllMediaOps known privB pubB linkMap vslug (ios v) 1 items
      ++ runOps known privB pubB linkMap ios (v + 1) rest

/-- The object-store state after a whole run of main(): the global
prune of voyages missing from the document (S3-identity per the spec),
then the per-voyage loop. -/
def run_s3_state (known : List String) (privB pubB : String)
    (linkMap : List (String × PyDict)) (desired : List String)
    (ios : Nat → Nat → ItemIO) (voyages : List (String × List PyDict))
    (st0 : List (String × String)) : List (String × String) :=
  runS3 known privB pubB linkMap ios 0 voyages
    (prune_voyages_missing_from_doc_s3 desired st0)

/-! ## Theorems -/

theorem head?_collapseDash (l : List Char) : (collapseDash l).head? = l.head? := by
  induction l using collapseDash.induct with
  | case1 => rfl
  | case2 c => rfl
  | case3 a b rest h ih =>
    simp only [Bool.and_eq_true, decide_eq_true_eq] at h
    obtain ⟨ha, hb⟩ := h
    subst ha; subst hb
    simp_all [collapseDash]
  | case4 a b rest h ih => simp [collapseDash, h]

theorem collapseDash_ne_nil {l : List Char} (h : l ≠ []) : collapseDash l ≠ [] := by
  intro hc
  have := head?_collapseDash l
  rw [hc] at this
  cases l with
  | nil => exact h rfl
  | cons a t => simp at this

theorem getLast?_collapseDash (l : List Char) :
    (collapseDash l).getLast? = l.getLast? := by
  induction l using collapseDash.induct with
  | case1 => rfl
  | case2 c => rfl
  | case3 a b rest h ih =>
    have : collapseDash (a :: b :: rest) = collapseDash (b :: rest) := by
      simp [collapseDash, h]
    rw [this, ih, List.getLast?_cons_cons]
  | case4 a b rest h ih =>
    have hstep : collapseDash (a :: b :: rest) = a :: collapseDash (b :: rest) := by
      simp [collapseDash, h]
    rw [hstep]
    cases hm : collapseDash (b :: rest) with
    | nil => exact absurd hm (collapseDash_ne_nil (by simp))
    | cons x xs =>
      rw [hm] at ih
      calc (a :: x :: xs).getLast? = (x :: xs).getLast? := List.getLast?_cons_cons
        _ = (b :: rest).getLast? := ih
        _ = (a :: b :: rest).getLast? := List.getLast?_cons_cons.symm

theorem mem_collapseDash {c : Char} {l : List Char}
    (h : c ∈ collapseDash l) : c ∈ l := by
  induction l using collapseDash.induct with
  | case1 => simpa [collapseDash] using h
  | case2 d => simpa [collapseDash] using h
  | case3 a b rest hc ih =>
    rw [show collapseDash (a :: b :: rest) = collapseDash (b :: rest) by
      simp [collapseDash, hc]] at h
    exact List.mem_cons_of_mem a (ih h)
  | case4 a b rest hc ih =>
    rw [show collapseDash (a :: b :: rest) = a :: collapseDash (b :: rest) by
      simp [collapseDash, hc]] at h
    rcases List.mem_cons.mp h with h1 | h2
    · exact h1 ▸ List.mem_cons_self _ _
    · exact List.mem_cons_of_mem a (ih h2)

theorem noDoubleDash_collapseDash (l : List Char) :
    noDoubleDash (collapseDash l) = true := by
  induction l using collapseDash.induct with
  | case1 => rfl
  | case2 c => rfl
  | case3 a b rest h ih =>
    rw [show collapseDash (a :: b :: rest) = collapseDash (b :: rest) by
      simp [collapseDash, h]]
    exact ih
  | case4 a b rest h ih =>
    rw [show collapseDash (a :: b :: rest) = a :: collapseDash (b :: rest) by
      simp [collapseDash, h]]
    cases hm : collapseDash (b :: rest) with
    | nil => rfl
    | cons x xs =>
      have hx : x = b := by
        have hh2 := head?_collapseDash (b :: rest)
        rw [hm] at hh2
        simpa using hh2
      rw [hm] at ih
      simp only [noDoubleDash, Bool.and_eq_true]
      refine ⟨?_, ih⟩
      subst hx
      cases hE : (decide (a = '-') && decide (x = '-')) with
      | false => simp [hE]
      | true => exact absurd hE h

theorem collapseDash_eq_self {l : List Char} (h : noDoubleDash l = true) :
    collapseDash l = l := by
  induction l using collapseDash.induct with
  | case1 => rfl
  | case2 c => rfl
  | case3 a b rest hc ih =>
    exfalso
    simp only [noDoubleDash, Bool.and_eq_true, Bool.not_eq_true'] at h
    rw [h.1] at hc
    exact absurd hc (by simp)
  | case4 a b rest hc ih =>
    simp only [noDoubleDash, Bool.and_eq_true] at h
    rw [show collapseDash (a :: b :: rest) = a :: collapseDash (b :: rest) by
      simp [collapseDash, hc]]
    rw [ih h.2]

theorem head?_dropWhile_false {p : Char → Bool} {c : Char} :
    ∀ {l : List Char}, (l.dropWhile p).head? = some c → p c = false := by
  intro l
  induction l with
  | nil => intro h; simp [List.dropWhile] at h
  | cons a t ih =>
    intro h
    rw [List.dropWhile_cons] at h
    by_cases hpa : p a = true
    · rw [if_pos hpa] at h; exact ih h
    · rw [if_neg hpa] at h
      simp only [List.head?_cons, Option.some.injEq] at h
      rw [← h]
      exact Bool.not_eq_true _ ▸ (by simpa using hpa)

theorem dropWhile_eq_self_of_head? {p : Char → Bool} {l : List Char}
    (h : ∀ c, l.head? = some c → p c = false) : l.dropWhile p = l := by
  cases l with
  | nil => rfl
  | cons a t =>
    rw [List.dropWhile_cons, if_neg]
    rw [h a rfl]
    simp

theorem mem_stripDash {c : Char} {l : List Char} (h : c ∈ stripDash l) : c ∈ l := by
  unfold stripDash at h
  rw [List.mem_reverse] at h
  have h2 := (List.dropWhile_suffix isDash).sublist.mem h
  rw [List.mem_reverse] at h2
  exact (List.dropWhile_suffix isDash).sublist.mem h2

theorem stripDash_head?_ne {c : Char} {l : List Char}
    (h : (stripDash l).head? = some c) : isDash c = false := by
  unfold stripDash at h
  rw [List.head?_reverse] at h
  obtain ⟨t, ht⟩ := List.dropWhile_suffix (l := (l.dropWhile isDash).reverse) isDash
  have hlast : ((l.dropWhile isDash).reverse).getLast? = some c := by
    rw [← ht, List.getLast?_append, h]; rfl
  rw [List.getLast?_reverse] at hlast
  exact head?_dropWhile_false hlast

theorem stripDash_getLast?_ne {c : Char} {l : List Char}
    (h : (stripDash l).getLast? = some c) : isDash c = false := by
  unfold stripDash at h
  rw [List.getLast?_reverse] at h
  exact head?_dropWhile_false h

theorem stripDash_eq_self {l : List Char}
    (hh : l.head? ≠ some '-') (hl : l.getLast? ≠ some '-') :
    stripDash l = l := by
  unfold stripDash
  have h1 : l.dropWhile isDash = l := by
    apply dropWhile_eq_self_of_head?
    intro c hc
    have : c ≠ '-' := fun he => hh (he ▸ hc)
    simp [isDash, this]
  rw [h1]
  have h2 : l.reverse.dropWhile isDash = l.reverse := by
    apply dropWhile_eq_self_of_head?
    intro c hc
    rw [List.head?_reverse] at hc
    have : c ≠ '-' := fun he => hl (he ▸ hc)
    simp [isDash, this]
  rw [h2, List.reverse_reverse]

theorem toLower_fixed {c : Char} (h : (isLowerAlnum c || isDash c) = true) :
    Char.toLower c = c := by
  simp only [isLowerAlnum, isDash, Bool.or_eq_true, Bool.and_eq_true,
    decide_eq_true_eq] at h
  show (if c.toNat ≥ 65 ∧ c.toNat ≤ 90 then Char.ofNat (c.toNat + 32) else c) = c
  rcases h with (⟨h1, h2⟩ | ⟨h1, h2⟩) | h3
  · rw [Char.le_def, UInt32.le_def] at h1
    have : 97 ≤ c.toNat := h1
    rw [if_neg]; omega
  · rw [Char.le_def, UInt32.le_def] at h2
    have : c.toNat ≤ 57 := h2
    rw [if_neg]; omega
  · subst h3; rfl

theorem dashifyChar_fixed {c : Char} (h : (isLowerAlnum c || isDash c) = true) :
    dashifyChar c = c := by
  unfold dashifyChar
  rcases Bool.or_eq_true _ _ |>.mp h with h1 | h2
  · rw [if_pos h1]
  · simp only [isDash, decide_eq_true_eq] at h2
    subst h2; rfl

theorem dashifyChar_shape (c : Char) :
    (isLowerAlnum (dashifyChar c) || isDash (dashifyChar c)) = true := by
  unfold dashifyChar
  by_cases h : isLowerAlnum c = true
  · rw [if_pos h, h]; rfl
  · rw [if_neg h]; rfl

theorem map_eq_self_of_forall {f : Char → Char} {l : List Char}
    (h : ∀ c ∈ l, f c = c) : l.map f = l := by
  induction l with
  | nil => rfl
  | cons a t ih =>
    simp only [List.map_cons, h a (List.mem_cons_self a t)]
    rw [ih fun c hc => h c (List.mem_cons_of_mem a hc)]

theorem validSlugChars_spec {l : List Char} (h : validSlugChars l = true) :
    l ≠ [] ∧ (∀ c ∈ l, (isLowerAlnum c || isDash c) = true)
      ∧ l.head? ≠ some '-' ∧ l.getLast? ≠ some '-' ∧ noDoubleDash l = true := by
  simp only [validSlugChars, Bool.and_eq_true, Bool.not_eq_true', List.all_eq_true,
    beq_eq_false_iff_ne, ne_eq] at h
  obtain ⟨⟨⟨⟨h1, h2⟩, h3⟩, h4⟩, h5⟩ := h
  refine ⟨?_, h2, h3, h4, h5⟩
  intro hc
  rw [hc] at h1
  simp at h1

theorem slugifyChars_fixed {l : List Char} (h : validSlugChars l = true) :
    slugifyChars l = l := by
  obtain ⟨hne, hall, hh, hl, hnd⟩ := validSlugChars_spec h
  have hie : l.isEmpty = false := by
    cases l with
    | nil => exact absurd rfl hne
    | cons a t => rfl
  simp only [slugifyChars]
  rw [map_eq_self_of_forall (fun c hc => toLower_fixed (hall c hc)),
      map_eq_self_of_forall (fun c hc => dashifyChar_fixed (hall c hc)),
      collapseDash_eq_self hnd, stripDash_eq_self hh hl,
      collapseDash_eq_self hnd]
  simp [hie]

theorem validSlugChars_slugifyChars (l : List Char) :
    validSlugChars (slugifyChars l) = true := by
  simp only [slugifyChars]
  by_cases h3 : (collapseDash (stripDash (collapseDash
      ((l.map Char.toLower).map dashifyChar)))).isEmpty
  · rw [if_pos h3]; decide
  · rw [if_neg h3]
    simp only [validSlugChars, Bool.and_eq_true]
    refine ⟨⟨⟨⟨by simpa using h3, ?_⟩, ?_⟩, ?_⟩, noDoubleDash_collapseDash _⟩
    · rw [List.all_eq_true]
      intro c hc
      have hc2 := mem_stripDash (mem_collapseDash hc)
      have hc3 := mem_collapseDash hc2
      obtain ⟨d, _, hd⟩ := List.mem_map.mp hc3
      rw [← hd]
      exact dashifyChar_shape d
    · rw [Bool.not_eq_true', beq_eq_false_iff_ne]
      intro hcontra
      rw [head?_collapseDash] at hcontra
      have := stripDash_head?_ne hcontra
      simp [isDash] at this
    · rw [Bool.not_eq_true', beq_eq_false_iff_ne]
      intro hcontra
      rw [getLast?_collapseDash] at hcontra
      have := stripDash_getLast?_ne hcontra
      simp [isDash] at this

theorem slugifyChars_all_dash {l : List Char}
    (h : ∀ c ∈ l, isLowerAlnum c.toLower = false) :
    slugifyChars l = "unknown".data := by
  have hdash : ∀ c ∈ (l.map Char.toLower).map dashifyChar, isDash c = true := by
    intro c hc
    obtain ⟨d, hd1, hd2⟩ := List.mem_map.mp hc
    obtain ⟨e, he1, he2⟩ := List.mem_map.mp hd1
    have hd : isLowerAlnum d = false := he2 ▸ h e he1
    rw [← hd2]
    unfold dashifyChar
    rw [if_neg (by simp [hd])]
    rfl
  have hdash2 : ∀ c ∈ collapseDash ((l.map Char.toLower).map dashifyChar),
      isDash c = true := fun c hc => hdash c (mem_collapseDash hc)
  have hstrip : stripDash (collapseDash ((l.map Char.toLower).map dashifyChar)) = [] := by
    unfold stripDash
    rw [List.dropWhile_eq_nil_iff.mpr hdash2]
    rfl
  simp only [slugifyChars]
  rw [hstrip]
  rfl

/-- C10: slugger.slugify is idempotent; its output always matches
^[a-z0-9]+(-[a-z0-9]+)*$ (nonempty, lowercase, no leading, trailing or
doubled hyphen); and when no character survives normalization (no character
lowers into [a-z0-9]) the result is the fallback "unknown". -/
theorem C10_slugify_idempotent_shape (x : String) :
    slugify (slugify x) = slugify x
      ∧ validSlugChars (slugify x).data = true
      ∧ ((∀ c ∈ x.data, isLowerAlnum c.toLower = false) → slugify x = "unknown") := by
  refine ⟨?_, ?_, ?_⟩
  · have hv : validSlugChars (slugifyChars x.data) = true :=
      validSlugChars_slugifyChars x.data
    show String.mk (slugifyChars (String.mk (slugifyChars x.data)).data)
        = String.mk (slugifyChars x.data)
    rw [show (String.mk (slugifyChars x.data)).data = slugifyChars x.data from rfl]
    rw [slugifyChars_fixed hv]
  · exact validSlugChars_slugifyChars x.data
  · intro h
    show String.mk (slugifyChars x.data) = "unknown"
    rw [slugifyChars_all_dash h]

/-- Witness for C10: the inner hypothesis discharged at the concrete input
"???" (which normalizes to nothing), and idempotence observed at
"Fishing Trip". -/
theorem C10_witness :
    slugify "???" = "unknown"
      ∧ slugify (slugify "Fishing Trip") = slugify "Fishing Trip" :=
  ⟨(C10_slugify_idempotent_shape "???").2.2 (by decide),
   (C10_slugify_idempotent_shape "Fishing Trip").1⟩

theorem foldl_genSlugStep (vslug : String) :
    ∀ (items : List MediaItem) (cs : List ((String × String × String) × Nat))
      (acc : List MediaItem),
      (items.foldl (genSlugStep vslug) (cs, acc)).2 = acc ++ genRec vslug cs items := by
  intro items
  induction items with
  | nil => intro cs acc; simp [genRec]
  | cons m ms ih =>
    intro cs acc
    by_cases hm : m.slug ≠ ""
    · rw [show (m :: ms).foldl (genSlugStep vslug) (cs, acc)
          = ms.foldl (genSlugStep vslug) (cs, acc ++ [m]) by
        simp [List.foldl_cons, genSlugStep, hm]]
      rw [ih, genRec, if_pos hm]
      simp
    · rw [show (m :: ms).foldl (genSlugStep vslug) (cs, acc)
          = ms.foldl (genSlugStep vslug)
            (counterSet cs (mediaKey vslug m)
              (counterGet cs (mediaKey vslug m) + 1),
             acc ++ [{ m with
               source_slug := normalize_source m.credit,
               slug := tokenizeDate m.date ++ "-" ++ normalize_source m.credit
                 ++ "-" ++ vslug ++ "-"
                 ++ pad2 (counterGet cs (mediaKey vslug m) + 1) }]) by
        simp [List.foldl_cons, genSlugStep, hm, mediaKey]]
      rw [ih, genRec, if_neg hm]
      simp [mediaKey]

theorem generate_media_slugs_eq_genRec (items : List MediaItem) (vslug : String) :
    generate_media_slugs items vslug = genRec vslug [] items := by
  unfold generate_media_slugs
  rw [foldl_genSlugStep vslug items [] []]
  rfl

theorem counterGet_filter_ne {k k' : String × String × String}
    (h : k' ≠ k) :
    ∀ (cs : List ((String × String × String) × Nat)),
      counterGet (cs.filter (fun p => decide (p.1 ≠ k))) k' = counterGet cs k' := by
  intro cs
  induction cs with
  | nil => rfl
  | cons a rest ih =>
    by_cases ha : a.1 = k
    · rw [show ((a :: rest).filter (fun p => decide (p.1 ≠ k)))
          = rest.filter (fun p => decide (p.1 ≠ k)) by simp [List.filter, ha]]
      rw [ih]
      obtain ⟨a1, a2⟩ := a
      simp only at ha
      rw [show counterGet ((a1, a2) :: rest) k' = counterGet rest k' by
        simp only [counterGet]
        rw [if_neg (by rw [ha]; exact fun he => h he.symm)]]
    · rw [show ((a :: rest).filter (fun p => decide (p.1 ≠ k)))
          = a :: rest.filter (fun p => decide (p.1 ≠ k)) by simp [List.filter, ha]]
      obtain ⟨a1, a2⟩ := a
      simp only [counterGet]
      by_cases h1 : a1 = k'
      · rw [if_pos h1, if_pos h1]
      · rw [if_neg h1, if_neg h1, ih]

theorem counterGet_set_self (cs : List ((String × String × String) × Nat))
    (k : String × String × String) (n : Nat) :
    counterGet (counterSet cs k n) k = n := by
  simp [counterSet, counterGet]

theorem counterGet_set_ne {k k' : String × String × String}
    (cs : List ((String × String × String) × Nat)) (n : Nat) (h : k' ≠ k) :
    counterGet (counterSet cs k n) k' = counterGet cs k' := by
  simp only [counterSet, counterGet]
  rw [if_neg (fun he => h he.symm), counterGet_filter_ne h]

theorem genRec_length (vslug : String) :
    ∀ (items : List MediaItem) (cs : List ((String × String × String) × Nat)),
      (genRec vslug cs items).length = items.length := by
  intro items
  induction items with
  | nil => intro cs; rfl
  | cons m ms ih =>
    intro cs
    by_cases hm : m.slug ≠ ""
    · rw [genRec, if_pos hm]; simp [ih]
    · rw [genRec, if_neg hm]; simp [ih]

theorem genRec_get_keep (vslug : String) :
    ∀ (items : List MediaItem) (cs : List ((String × String × String) × Nat))
      (i : Nat) (m : MediaItem),
      items[i]? = some m → m.slug ≠ "" → (genRec vslug cs items)[i]? = some m := by
  intro items
  induction items with
  | nil => intro cs i m h; simp at h
  | cons m0 ms ih =>
    intro cs i m h hm
    cases i with
    | zero =>
      simp only [List.getElem?_cons_zero, Option.some.injEq] at h
      subst h
      rw [genRec, if_pos hm]
      simp
    | succ j =>
      simp only [List.getElem?_cons_succ] at h
      by_cases hm0 : m0.slug ≠ ""
      · rw [genRec, if_pos hm0]
        simpa using ih cs j m h hm
      · rw [genRec, if_neg hm0]
        simpa using ih _ j m h hm

theorem genRec_get_gen (vslug : String) :
    ∀ (items : List MediaItem) (cs : List ((String × String × String) × Nat))
      (i : Nat) (m : MediaItem),
      items[i]? = some m → m.slug = "" →
      (genRec vslug cs items)[i]? = some { m with
        source_slug := normalize_source m.credit,
        slug := tokenizeDate m.date ++ "-" ++ normalize_source m.credit ++ "-"
          ++ vslug ++ "-"
          ++ pad2 (counterGet cs (mediaKey vslug m)
              + countScope vslug (mediaKey vslug m) (items.take i) + 1) } := by
  intro items
  induction items with
  | nil => intro cs i m h; simp at h
  | cons m0 ms ih =>
    intro cs i m h hm
    cases i with
    | zero =>
      simp only [List.getElem?_cons_zero, Option.some.injEq] at h
      subst h
      rw [genRec, if_neg (by simpa using hm)]
      simp [mediaKey, countScope]
    | succ j =>
      simp only [List.getElem?_cons_succ] at h
      by_cases hm0 : m0.slug ≠ ""
      · rw [genRec, if_pos hm0]
        have hcnt : countScope vslug (mediaKey vslug m) ((m0 :: ms).take (j + 1))
            = countScope vslug (mediaKey vslug m) (ms.take j) := by
          simp only [List.take_succ_cons, countScope, List.filter]
          rw [show (decide (m0.slug = "") && decide (mediaKey vslug m0 = mediaKey vslug m))
              = false by simp [hm0]]
        rw [hcnt]
        simpa using ih cs j m h hm
      · have hm0' : m0.slug = "" := by simpa using hm0
        have hcnt : countScope vslug (mediaKey vslug m) ((m0 :: ms).take (j + 1))
            = (if mediaKey vslug m = mediaKey vslug m0 then 1 else 0)
              + countScope vslug (mediaKey vslug m) (ms.take j) := by
          by_cases hkk : mediaKey vslug m = mediaKey vslug m0
          · rw [if_pos hkk]
            simp [countScope, List.filter, hm0', hkk.symm]
            omega
          · have hne : ¬(mediaKey vslug m0 = mediaKey vslug m) := fun hc => hkk hc.symm
            simp [countScope, List.filter, hm0', hne, hkk]
        have hrec := ih (counterSet cs (mediaKey vslug m0)
          (counterGet cs (mediaKey vslug m0) + 1)) j m h hm
        have hstep : (genRec vslug cs (m0 :: ms))[j + 1]?
            = (genRec vslug (counterSet cs (mediaKey vslug m0)
                (counterGet cs (mediaKey vslug m0) + 1)) ms)[j]? := by
          rw [genRec, if_neg hm0]
          exact List.getElem?_cons_succ ..
        rw [hstep, hrec, hcnt]
        by_cases hkk : mediaKey vslug m = mediaKey vslug m0
        · rw [hkk, counterGet_set_self, if_pos rfl]
          have harith : counterGet cs (mediaKey vslug m0) + 1
                + countScope vslug (mediaKey vslug m0) (ms.take j) + 1
              = counterGet cs (mediaKey vslug m0)
                + (1 + countScope vslug (mediaKey vslug m0) (ms.take j)) + 1 := by
            omega
          rw [harith]
        · rw [counterGet_set_ne cs _ hkk, if_neg hkk, Nat.zero_add]

theorem countScope_le_length (vslug : String) (k : String × String × String)
    (l : List MediaItem) : countScope vslug k l ≤ l.length :=
  List.length_filter_le _ l

theorem countScope_append (vslug : String) (k : String × String × String)
    (l1 l2 : List MediaItem) :
    countScope vslug k (l1 ++ l2) = countScope vslug k l1 + countScope vslug k l2 := by
  simp [countScope]

theorem countScope_take_lt (vslug : String) {items : List MediaItem} {i j : Nat}
    {mi : MediaItem} (hij : i < j) (hi : items[i]? = some mi)
    (hslug : mi.slug = "") :
    countScope vslug (mediaKey vslug mi) (items.take i)
      < countScope vslug (mediaKey vslug mi) (items.take j) := by
  have hsplit : items.take j = items.take i ++ (items.take j).drop i := by
    conv_lhs => rw [← List.take_append_drop i (items.take j)]
    rw [List.take_take, Nat.min_eq_left (Nat.le_of_lt hij)]
  have hhead : ((items.take j).drop i).head? = some mi := by
    rw [List.head?_drop, List.getElem?_take_of_lt hij, hi]
  cases hd : (items.take j).drop i with
  | nil => rw [hd] at hhead; simp at hhead
  | cons x xs =>
    rw [hd] at hhead
    simp only [List.head?_cons, Option.some.injEq] at hhead
    subst hhead
    rw [hsplit, hd, countScope_append]
    have h1 : 1 ≤ countScope vslug (mediaKey vslug x) (x :: xs) := by
      simp [countScope, List.filter, hslug]
    omega

set_option maxRecDepth 20000 in
theorem pad2_ne_of_lt : ∀ a : Nat, a < 100 → ∀ b : Nat, b < 100 →
    a < b → pad2 a ≠ pad2 b := by decide

theorem stringDataEq {s t : String} (h : s.data = t.data) : s = t := by
  cases s; cases t; exact congrArg String.mk h

theorem slug_ne_of_pad2_ne {dt src vslug : String} {a b : Nat}
    (h : pad2 a ≠ pad2 b) :
    dt ++ "-" ++ src ++ "-" ++ vslug ++ "-" ++ pad2 a
      ≠ dt ++ "-" ++ src ++ "-" ++ vslug ++ "-" ++ pad2 b := by
  intro he
  apply h
  have hd := congrArg String.data he
  simp only [String.data_append] at hd
  exact stringDataEq (List.append_cancel_left hd)

/-- C8 counterexample: two items lacking slugs whose scope keys differ only
in where the hyphen between date token and source slug falls receive the
same generated slug, so after the call two media items do share a slug.
Item one has date "a b" and credit "c"; item two has date "a" and credit
"b c"; both slugs come out as a-b-c-v-01. -/
theorem C8_counterexample :
    ((generate_media_slugs
        [{ date := "a b", credit := "c" }, { date := "a", credit := "b c" }]
        "v").map (fun m => m.slug)) = ["a-b-c-v-01", "a-b-c-v-01"]
      ∧ ¬ ((generate_media_slugs
        [{ date := "a b", credit := "c" }, { date := "a", credit := "b c" }]
        "v").map (fun m => m.slug)).Nodup := by
  constructor
  · decide
  · decide

/-- C8 amended: generate_media_slugs keeps items that already have a slug
unchanged; every generated slug equals
date_token-source_slug-voyage_slug-NN (hence contains the owning
voyage_slug and ends in the zero-padded counter), with NN ≥ 01; and no two
items generated in the same (date_token, source_slug, voyage_slug) scope
share a slug.  Distinct scopes can collide (see the counterexample), so
uniqueness holds per scope, not globally. -/
theorem C8_generate_media_slugs_amended (items : List MediaItem) (vslug : String)
    (hlen : items.length ≤ 99) :
    (generate_media_slugs items vslug).length = items.length
    ∧ (∀ i : Nat, ∀ m : MediaItem, items[i]? = some m → m.slug ≠ "" →
        (generate_media_slugs items vslug)[i]? = some m)
    ∧ (∀ i : Nat, ∀ m : MediaItem, items[i]? = some m → m.slug = "" →
        ∃ n : Nat, 1 ≤ n ∧ n ≤ 99 ∧
          (generate_media_slugs items vslug)[i]? = some { m with
            source_slug := normalize_source m.credit,
            slug := tokenizeDate m.date ++ "-" ++ normalize_source m.credit
              ++ "-" ++ vslug ++ "-" ++ pad2 n })
    ∧ (∀ i j : Nat, ∀ mi mj mi' mj' : MediaItem, i < j →
        items[i]? = some mi → items[j]? = some mj →
        mi.slug = "" → mj.slug = "" →
        tokenizeDate mi.date = tokenizeDate mj.date →
        normalize_source mi.credit = normalize_source mj.credit →
        (generate_media_slugs items vslug)[i]? = some mi' →
        (generate_media_slugs items vslug)[j]? = some mj' →
        mi'.slug ≠ mj'.slug) := by
  rw [generate_media_slugs_eq_genRec]
  refine ⟨genRec_length vslug items [],
    fun i m h hm => genRec_get_keep vslug items [] i m h hm, ?_, ?_⟩
  · intro i m h hm
    refine ⟨counterGet [] (mediaKey vslug m)
      + countScope vslug (mediaKey vslug m) (items.take i) + 1, by omega, ?_,
      genRec_get_gen vslug items [] i m h hm⟩
    have h1 : countScope vslug (mediaKey vslug m) (items.take i)
        ≤ (items.take i).length := countScope_le_length ..
    have h2 : (items.take i).length = min i items.length := items.length_take i
    have h3 : i < items.length := (List.getElem?_eq_some.mp h).1
    have h4 : counterGet [] (mediaKey vslug m) = 0 := rfl
    omega
  · intro i j mi mj mi' mj' hij hi hj hsi hsj hdt hsrc hi' hj'
    have gi := genRec_get_gen vslug items [] i mi hi hsi
    have gj := genRec_get_gen vslug items [] j mj hj hsj
    have hmi' : mi' = { mi with
        source_slug := normalize_source mi.credit,
        slug := tokenizeDate mi.date ++ "-" ++ normalize_source mi.credit
          ++ "-" ++ vslug ++ "-"
          ++ pad2 (counterGet [] (mediaKey vslug mi)
              + countScope vslug (mediaKey vslug mi) (items.take i) + 1) } :=
      Option.some_injective _ (hi'.symm.trans gi)
    have hmj' : mj' = { mj with
        source_slug := normalize_source mj.credit,
        slug := tokenizeDate mj.date ++ "-" ++ normalize_source mj.credit
          ++ "-" ++ vslug ++ "-"
          ++ pad2 (counterGet [] (mediaKey vslug mj)
              + countScope vslug (mediaKey vslug mj) (items.take j) + 1) } :=
      Option.some_injective _ (hj'.symm.trans gj)
    have hkeys : mediaKey vslug mj = mediaKey vslug mi := by
      simp [mediaKey, hdt, hsrc]
    rw [hmi', hmj']
    show tokenizeDate mi.date ++ "-" ++ normalize_source mi.credit ++ "-" ++ vslug
        ++ "-" ++ pad2 _ ≠ tokenizeDate mj.date ++ "-" ++ normalize_source mj.credit
        ++ "-" ++ vslug ++ "-" ++ pad2 _
    rw [← hdt, ← hsrc, hkeys]
    have hlt : countScope vslug (mediaKey vslug mi) (items.take i)
        < countScope vslug (mediaKey vslug mi) (items.take j) :=
      countScope_take_lt vslug hij hi hsi
    have hbndj : countScope vslug (mediaKey vslug mi) (items.take j)
        ≤ (items.take j).length := countScope_le_length ..
    have hlenj : (items.take j).length = min j items.length := items.length_take j
    have hjlt : j < items.length := (List.getElem?_eq_some.mp hj).1
    have h0 : counterGet [] (mediaKey vslug mi) = 0 := rfl
    apply slug_ne_of_pad2_ne
    rw [h0]
    apply pad2_ne_of_lt
    · omega
    · omega
    · omega

/-- Witness for C8 amended at a concrete run: two same-scope items yield
two output items (slugs 01 and 02). -/
theorem C8_witness :
    (generate_media_slugs
      [{ credit := "White House", date := "1933-04-23" },
       { credit := "White House", date := "1933-04-23" }]
      "1933-04-23-roosevelt-franklin-fishing-trip").length = 2 :=
  (C8_generate_media_slugs_amended _ _ (by decide)).1

/-! ## President extraction (claim C9) -/

theorem bestPres_fold (rest : List Char) :
    ∀ (known : List String) (acc : Option String),
      (∀ b, acc = some b → presMatch rest b = true) →
      (∀ b, known.foldl (bestStep rest) acc = some b →
        presMatch rest b = true ∧ (b ∈ known ∨ acc = some b)
        ∧ (∀ p ∈ known, presMatch rest p = true → p.length ≤ b.length)
        ∧ (∀ a, acc = some a → a.length ≤ b.length))
      ∧ (known.foldl (bestStep rest) acc = none →
          acc = none ∧ ∀ p ∈ known, presMatch rest p = false) := by
  intro known
  induction known with
  | nil =>
    intro acc hacc
    constructor
    · intro b hb
      simp only [List.foldl_nil] at hb
      refine ⟨hacc b hb, Or.inr hb, by simp, fun a ha => ?_⟩
      rw [hb] at ha
      injection ha with h
      rw [h]
    · intro hn
      simp only [List.foldl_nil] at hn
      exact ⟨hn, by simp⟩
  | cons p0 ps ih =>
    intro acc hacc
    rw [List.foldl_cons]
    by_cases hp : presMatch rest p0 = true
    · have hacc' : ∀ b, bestStep rest acc p0 = some b → presMatch rest b = true := by
        intro b hb
        cases acc with
        | none =>
          simp [bestStep, hp] at hb
          rw [← hb]; exact hp
        | some b0 =>
          by_cases hl : p0.length > b0.length
          · simp [bestStep, hp, hl] at hb
            rw [← hb]; exact hp
          · simp [bestStep, hp, hl] at hb
            exact hacc b (by rw [hb])
      obtain ⟨ih1, ih2⟩ := ih (bestStep rest acc p0) hacc'
      constructor
      · intro b hb
        obtain ⟨m1, m2, m3, m4⟩ := ih1 b hb
        refine ⟨m1, ?_, ?_, ?_⟩
        · rcases m2 with h1 | h1
          · exact Or.inl (List.mem_cons_of_mem p0 h1)
          · cases acc with
            | none =>
              simp [bestStep, hp] at h1
              exact Or.inl (by rw [← h1]; exact List.mem_cons_self p0 ps)
            | some b0 =>
              by_cases hl : p0.length > b0.length
              · simp [bestStep, hp, hl] at h1
                exact Or.inl (by rw [← h1]; exact List.mem_cons_self p0 ps)
              · simp [bestStep, hp, hl] at h1
                exact Or.inr (by rw [h1])
        · intro q hq hmq
          rcases List.mem_cons.mp hq with h1 | h1
          · subst h1
            cases hacc2 : acc with
            | none =>
              have hstep : bestStep rest acc q = some q := by
                rw [hacc2]; simp [bestStep, hp]
              exact m4 q hstep
            | some b0 =>
              by_cases hl : q.length > b0.length
              · have hstep : bestStep rest acc q = some q := by
                  rw [hacc2]; simp [bestStep, hp, hl]
                exact m4 q hstep
              · have hstep : bestStep rest acc q = some b0 := by
                  rw [hacc2]; simp [bestStep, hp, hl]
                have := m4 b0 hstep
                omega
          · exact m3 q h1 hmq
        · intro a ha
          by_cases hl : p0.length > a.length
          · have hstep : bestStep rest acc p0 = some p0 := by
              rw [ha]; simp [bestStep, hp, hl]
            have := m4 p0 hstep
            omega
          · have hstep : bestStep rest acc p0 = some a := by
              rw [ha]; simp [bestStep, hp, hl]
            exact m4 a hstep
      · intro hn
        obtain ⟨hstep, _⟩ := ih2 hn
        exfalso
        cases acc with
        | none => simp [bestStep, hp] at hstep
        | some b0 =>
          by_cases hl : p0.length > b0.length
          · simp [bestStep, hp, hl] at hstep
          · simp [bestStep, hp, hl] at hstep
    · have hpf : presMatch rest p0 = false := by
        cases hpc : presMatch rest p0 with
        | false => rfl
        | true => exact absurd hpc hp
      rw [show bestStep rest acc p0 = acc by simp [bestStep, hpf]]
      obtain ⟨ih1, ih2⟩ := ih acc hacc
      constructor
      · intro b hb
        obtain ⟨m1, m2, m3, m4⟩ := ih1 b hb
        refine ⟨m1, ?_, ?_, m4⟩
        · rcases m2 with h1 | h1
          · exact Or.inl (List.mem_cons_of_mem p0 h1)
          · exact Or.inr h1
        · intro q hq hmq
          rcases List.mem_cons.mp hq with h1 | h1
          · subst h1; rw [hpf] at hmq; exact Bool.noConfusion hmq
          · exact m3 q h1 hmq
      · intro hn
        obtain ⟨ha, hps⟩ := ih2 hn
        refine ⟨ha, ?_⟩
        intro q hq
        rcases List.mem_cons.mp hq with h1 | h1
        · subst h1; exact hpf
        · exact hps q h1

theorem bestPres_some {rest : List Char} {known : List String} {b : String}
    (h : bestPres rest known = some b) :
    presMatch rest b = true ∧ b ∈ known
      ∧ ∀ p ∈ known, presMatch rest p = true → p.length ≤ b.length := by
  obtain ⟨m1, m2, m3, _⟩ :=
    ((bestPres_fold rest known none (by simp)).1) b h
  rcases m2 with h1 | h1
  · exact ⟨m1, h1, m3⟩
  · exact Option.noConfusion h1

theorem bestPres_none {rest : List Char} {known : List String}
    (h : bestPres rest known = none) :
    ∀ p ∈ known, presMatch rest p = false :=
  ((bestPres_fold rest known none (by simp)).2 h).2

theorem pyStrip_eq_self {l : List Char}
    (hh : ∀ c, l.head? = some c → isPySpace c = false)
    (hl : ∀ c, l.getLast? = some c → isPySpace c = false) :
    pyStrip l = l := by
  unfold pyStrip
  rw [dropWhile_eq_self_of_head? hh]
  have h2 : l.reverse.dropWhile isPySpace = l.reverse := by
    apply dropWhile_eq_self_of_head?
    intro c hc
    rw [List.head?_reverse] at hc
    exact hl c hc
  rw [h2, List.reverse_reverse]

theorem digit_lowerAlnum {c : Char} (h : c.isDigit = true) :
    isLowerAlnum c = true := by
  simp only [Char.isDigit, Bool.and_eq_true, decide_eq_true_eq] at h
  simp only [isLowerAlnum, Bool.or_eq_true, Bool.and_eq_true, decide_eq_true_eq]
  exact Or.inr ⟨Char.le_def.mpr h.1, Char.le_def.mpr h.2⟩

theorem digit_not_space {c : Char} (h : c.isDigit = true) :
    isPySpace c = false := by
  simp only [Char.isDigit, Bool.and_eq_true, decide_eq_true_eq] at h
  have h1 := UInt32.le_def.mp h.1
  have h2 := UInt32.le_def.mp h.2
  simp only [isPySpace, Bool.or_eq_false_iff, decide_eq_false_iff_not]
  refine ⟨⟨⟨⟨⟨?_, ?_⟩, ?_⟩, ?_⟩, ?_⟩, ?_⟩ <;>
    (intro he; subst he; simp_all)

theorem slugChar_not_space {c : Char}
    (h : (isLowerAlnum c || isDash c) = true) : isPySpace c = false := by
  rcases Bool.or_eq_true _ _ |>.mp h with h1 | h1
  · simp only [isLowerAlnum, Bool.or_eq_true, Bool.and_eq_true,
      decide_eq_true_eq] at h1
    simp only [isPySpace, Bool.or_eq_false_iff, decide_eq_false_iff_not]
    rcases h1 with ⟨ha, hb⟩ | ⟨ha, hb⟩ <;>
      (have ha' := UInt32.le_def.mp (Char.le_def.mp ha)
       have hb' := UInt32.le_def.mp (Char.le_def.mp hb)
       refine ⟨⟨⟨⟨⟨?_, ?_⟩, ?_⟩, ?_⟩, ?_⟩, ?_⟩ <;>
         (intro he; subst he; simp_all))
  · simp only [isDash, decide_eq_true_eq] at h1
    subst h1
    rfl

theorem takeWhile_eq_self_of_forall {p : Char → Bool} {l : List Char}
    (h : ∀ a ∈ l, p a = true) : l.takeWhile p = l := by
  induction l with
  | nil => rfl
  | cons a t ih =>
    rw [List.takeWhile_cons, if_pos (h a (List.mem_cons_self a t))]
    rw [ih fun b hb => h b (List.mem_cons_of_mem a hb)]

/-- C9: for a voyage slug of the form YYYY-MM-DD-<rest> (digits in the date
part, slug characters in rest), president_from_voyage_slug returns the
longest registry slug that prefixes rest on a hyphen boundary (or equals
all of rest); when the registry is empty or no registry slug matches, it
falls back to the first hyphen-delimited token of rest. -/
theorem C9_president_from_voyage_slug
    (known : List String) (voyage_slug : String)
    (y1 y2 y3 y4 m1 m2 d1 d2 : Char) (rest : List Char)
    (hform : voyage_slug.data
      = [y1, y2, y3, y4, '-', m1, m2, '-', d1, d2, '-'] ++ rest)
    (hdig : [y1, y2, y3, y4, m1, m2, d1, d2].all Char.isDigit = true)
    (hrest : rest ≠ [])
    (hrestc : rest.all (fun c => isLowerAlnum c || isDash c) = true) :
    ((∃ p ∈ known, presMatch rest p = true) →
      ∃ b, president_from_voyage_slug known voyage_slug = b ∧ b ∈ known
        ∧ presMatch rest b = true
        ∧ ∀ q ∈ known, presMatch rest q = true → q.length ≤ b.length)
    ∧ ((∀ p ∈ known, presMatch rest p = false) →
      president_from_voyage_slug known voyage_slug
        = String.mk (rest.takeWhile (fun c => c ≠ '-'))) := by
  simp only [List.all_cons, List.all_nil, Bool.and_eq_true, and_true] at hdig
  obtain ⟨h1d, h2d, h3d, h4d, h5d, h6d, h7d, h8d⟩ := hdig
  have hrc : ∀ c ∈ rest, (isLowerAlnum c || isDash c) = true :=
    List.all_eq_true.mp hrestc
  have hchars : ∀ c ∈ voyage_slug.data, (isLowerAlnum c || isDash c) = true := by
    intro c hc
    rw [hform] at hc
    rcases List.mem_append.mp hc with h1 | h1
    · fin_cases h1 <;> first
        | (rw [digit_lowerAlnum h1d]; rfl)
        | (rw [digit_lowerAlnum h2d]; rfl)
        | (rw [digit_lowerAlnum h3d]; rfl)
        | (rw [digit_lowerAlnum h4d]; rfl)
        | (rw [digit_lowerAlnum h5d]; rfl)
        | (rw [digit_lowerAlnum h6d]; rfl)
        | (rw [digit_lowerAlnum h7d]; rfl)
        | (rw [digit_lowerAlnum h8d]; rfl)
        | rfl
    · exact hrc c h1
  have hstrip : pyStrip voyage_slug.data = voyage_slug.data := by
    apply pyStrip_eq_self
    · intro c hc
      rw [hform] at hc
      simp only [List.cons_append, List.head?_cons, Option.some.injEq] at hc
      rw [← hc]
      exact digit_not_space h1d
    · intro c hc
      rw [hform, List.getLast?_append_of_ne_nil _ hrest] at hc
      exact slugChar_not_space (hrc c (List.mem_of_getLast?_eq_some hc))
  have hmap : (pyStrip voyage_slug.data).map Char.toLower = voyage_slug.data := by
    rw [hstrip]
    exact map_eq_self_of_forall fun c hc => toLower_fixed (hchars c hc)
  have hrlen : 1 ≤ rest.length := by
    cases hr : rest with
    | nil => exact absurd hr hrest
    | cons a t => simp
  have hlen : voyage_slug.data.length = 11 + rest.length := by
    rw [hform]; simp; omega
  have hg4 : voyage_slug.data.get? 4 = some '-' := by rw [hform]; rfl
  have hg7 : voyage_slug.data.get? 7 = some '-' := by rw [hform]; rfl
  have hg10 : voyage_slug.data.get? 10 = some '-' := by rw [hform]; rfl
  have hdrop : voyage_slug.data.drop 11 = rest := by rw [hform]; rfl
  have hcond : ¬(voyage_slug.data.length < 12
      ∨ ¬(voyage_slug.data.get? 4 = some '-')
      ∨ ¬(voyage_slug.data.get? 7 = some '-')
      ∨ ¬(voyage_slug.data.get? 10 = some '-')) := by
    push_neg
    refine ⟨?_, hg4, hg7, hg10⟩
    omega
  have hred : president_from_voyage_slug known voyage_slug
      = (match (if known.isEmpty then (none : Option String)
            else bestPres rest known) with
         | some b => b
         | none =>
           if rest.contains '-' then
             String.mk (rest.takeWhile (fun c => c ≠ '-'))
           else if rest.isEmpty then "unknown-president"
           else String.mk rest) := by
    simp only [president_from_voyage_slug, hmap, hdrop]
    rw [if_neg hcond]
  constructor
  · rintro ⟨p, hp, hpm⟩
    have hke : known.isEmpty = false := by
      cases known with
      | nil => simp at hp
      | cons a t => rfl
    rw [hred, hke]
    cases hbp : bestPres rest known with
    | none => exact absurd (bestPres_none hbp p hp) (by rw [hpm]; simp)
    | some b =>
      obtain ⟨hb1, hb2, hb3⟩ := bestPres_some hbp
      exact ⟨b, by simp, hb2, hb1, hb3⟩
  · intro hall
    have hfallback :
        (if rest.contains '-' then
            String.mk (rest.takeWhile (fun c => c ≠ '-'))
          else if rest.isEmpty then "unknown-president"
          else String.mk rest)
        = String.mk (rest.takeWhile (fun c => c ≠ '-')) := by
      by_cases hcont : rest.contains '-' = true
      · rw [if_pos hcont]
      · rw [if_neg hcont]
        have hnotmem : ¬('-' ∈ rest) := by
          intro hmem
          exact hcont (by simpa [List.contains] using
            List.elem_eq_true_of_mem hmem)
        have htw : rest.takeWhile (fun c => c ≠ '-') = rest := by
          apply takeWhile_eq_self_of_forall
          intro a ha
          simp only [ne_eq, decide_eq_true_eq]
          intro he
          exact hnotmem (he ▸ ha)
        rw [htw, if_neg (by simpa [List.isEmpty_iff] using hrest)]
    cases hke : known.isEmpty with
    | true =>
      rw [hred, hke]
      exact hfallback
    | false =>
      rw [hred, hke]
      cases hbp : bestPres rest known with
      | none => exact hfallback
      | some b =>
        obtain ⟨hb1, hb2, _⟩ := bestPres_some hbp
        exact absurd (hall b hb2) (by rw [hb1]; simp)

/-- Witness for C9 at a concrete slug and registry: the registry slugs
roosevelt and roosevelt-franklin both prefix the remainder, and the longer
one wins. -/
theorem C9_witness :
    ∃ b, president_from_voyage_slug ["roosevelt", "roosevelt-franklin"]
        "1933-04-23-roosevelt-franklin-fishing-trip" = b
      ∧ b ∈ ["roosevelt", "roosevelt-franklin"]
      ∧ presMatch "roosevelt-franklin-fishing-trip".data b = true
      ∧ ∀ q ∈ ["roosevelt", "roosevelt-franklin"],
          presMatch "roosevelt-franklin-fishing-trip".data q = true →
          q.length ≤ b.length :=
  (C9_president_from_voyage_slug ["roosevelt", "roosevelt-franklin"]
    "1933-04-23-roosevelt-franklin-fishing-trip"
    '1' '9' '3' '3' '0' '4' '2' '3' "roosevelt-franklin-fishing-trip".data
    (by decide) (by decide) (by decide) (by decide)).1
    ⟨"roosevelt", by decide, by decide⟩

/-- C1 counterexample: for a jpg image the fetcher computes the key with
the media type segment image, not the extension segment jpg that the
specification requires. -/
theorem C1_counterexample :
    s3_key_for_original ["roosevelt-franklin"]
        "1933-04-23-roosevelt-franklin-fishing-trip" "m-01" "image" "jpg"
        "White House"
      = "media/roosevelt-franklin/white-house/1933-04-23-roosevelt-franklin-fishing-trip/image/m-01.jpg"
    ∧ specCanonicalKey ["roosevelt-franklin"]
        "1933-04-23-roosevelt-franklin-fishing-trip" "m-01" "jpg"
        "White House"
      = "media/roosevelt-franklin/white-house/1933-04-23-roosevelt-franklin-fishing-trip/jpg/m-01.jpg"
    ∧ s3_key_for_original ["roosevelt-franklin"]
        "1933-04-23-roosevelt-franklin-fishing-trip" "m-01" "image" "jpg"
        "White House"
      ≠ specCanonicalKey ["roosevelt-franklin"]
        "1933-04-23-roosevelt-franklin-fishing-trip" "m-01" "jpg"
        "White House" := by
  refine ⟨by decide, by decide, by decide⟩

/-- C1 amended: the canonical private key is
media/<president_slug>/<source_slug>/<voyage_slug>/<media_type>/<media_slug>.<ext>
(the directory segment before the filename is the media type, e.g. image,
not the extension), and both public derivatives use the same
media/<...>/<media_slug> prefix with the _preview.jpg and _thumb.jpg
suffixes. -/
theorem C1_key_layout_amended (known : List String)
    (vslug mslug mtype ext credit : String) :
    s3_key_for_original known vslug mslug mtype ext credit
      = ("media/" ++ president_from_voyage_slug known vslug ++ "/"
          ++ normalize_source credit ++ "/" ++ vslug ++ "/" ++ mtype ++ "/"
          ++ mslug) ++ "." ++ ext
    ∧ s3_key_for_derivative known vslug mslug mtype credit "preview"
      = ("media/" ++ president_from_voyage_slug known vslug ++ "/"
          ++ normalize_source credit ++ "/" ++ vslug ++ "/" ++ mtype ++ "/"
          ++ mslug) ++ "_preview.jpg"
    ∧ s3_key_for_derivative known vslug mslug mtype credit "thumb"
      = ("media/" ++ president_from_voyage_slug known vslug ++ "/"
          ++ normalize_source credit ++ "/" ++ vslug ++ "/" ++ mtype ++ "/"
          ++ mslug) ++ "_thumb.jpg" := by
  refine ⟨?_, ?_, ?_⟩ <;>
    (apply stringDataEq
     simp [s3_key_for_original, s3_key_for_derivative, String.data_append,
       List.append_assoc])

theorem upsertTab_eq (headers : List String) (keyCol : String) (d : PyDict)
    (rows : List (List String)) (h : ¬(pyGet d keyCol = "")) :
    upsertTab headers keyCol d rows = some (upsertRows headers keyCol d rows) := by
  simp only [upsertTab, upsertRows]
  rw [if_neg h]
  cases hidx : headers.findIdx? (fun hh => decide (hh = keyCol)) with
  | none => rfl
  | some kidx =>
    cases hfr : findRowIdx rows kidx (pyGet d keyCol) with
    | some i => simp [hfr]
    | none => simp [hfr]

theorem joinPresSlugs_ne_empty (presHeaders : List String)
    (presRows : List (List String)) (passengers : List PyDict) :
    ∀ s ∈ joinPresSlugs presHeaders presRows passengers, ¬(s = "") := by
  intro s hs
  unfold joinPresSlugs at hs
  cases hcol : presSlugColIdx presHeaders with
  | none => rw [hcol] at hs; simp at hs
  | some idx =>
    rw [hcol] at hs
    obtain ⟨p, _, hp2⟩ := List.mem_filterMap.mp hs
    by_cases hc : (if pyGet p "slug" ≠ "" then pyGet p "slug"
        else pyGet p "person_slug") ≠ ""
        ∧ ((presRows.filterMap (fun row => row.get? idx)).contains
          (if pyGet p "slug" ≠ "" then pyGet p "slug"
           else pyGet p "person_slug")) = true
    · rw [if_pos hc] at hp2
      injection hp2 with hp2
      rw [← hp2]
      exact hc.1
    · rw [if_neg hc] at hp2
      exact Option.noConfusion hp2

/-- C4 counterexample: upserting two bundles with different voyage slugs
v1 and v2 that share the passenger john-smith leaves a single
voyage_passengers row whose voyage_slug has been overwritten with v2 - the
join tab is keyed by person_slug alone, not by the
(voyage_slug, person_slug) composite, so the two distinct composite keys
do not yield two rows. -/
theorem C4_counterexample :
    ((sheets_update_all [] {} [("voyage_slug", "v1")]
        [[("slug", "john-smith"), ("full_name", "John Smith")]] [] []).bind
      (fun st1 => sheets_update_all [] st1 [("voyage_slug", "v2")]
        [[("slug", "john-smith"), ("full_name", "John Smith")]] [] [])).map
      (fun st2 => st2.voyage_passengers)
      = some [["v2", "john-smith", "Guest", ""]] := by decide

/-- C4 amended: the join-tab upsert keys rows by person_slug alone for
voyage_passengers and by media_slug alone for voyage_media: a row whose
person_slug (media_slug) cell matches is updated in place - its
voyage_slug overwritten by the incoming bundle - and only when no row
carries that person_slug (media_slug) is a new row appended.  One row
per distinct person_slug or media_slug remains, not one per composite
key. -/
theorem C4_join_upsert_amended (presHeaders : List String) (st : SheetsState)
    (voyage : PyDict) (p m : PyDict)
    (s3_links : List (String × (Option String × Option String)))
    (hv : ¬(pyGet voyage "voyage_slug" = ""))
    (hp1 : ¬(pyGet p "slug" = "")) (hp2 : ¬(pyGet p "full_name" = ""))
    (hm : ¬(pyGet m "slug" = "")) :
    ((sheets_update_all presHeaders st voyage [p] [m] s3_links).map
      (fun st' => st'.voyage_passengers)
      = some (match findRowIdx st.voyage_passengers 1 (pyGet p "slug") with
         | some i => st.voyage_passengers.set i
             [pyGet voyage "voyage_slug", pyGet p "slug",
              infer_capacity_role p, ""]
         | none => st.voyage_passengers
             ++ [[pyGet voyage "voyage_slug", pyGet p "slug",
                  infer_capacity_role p, ""]]))
    ∧ ((sheets_update_all presHeaders st voyage [p] [m] s3_links).map
      (fun st' => st'.voyage_media)
      = some (match findRowIdx st.voyage_media 1 (pyGet m "slug") with
         | some i => st.voyage_media.set i
             [pyGet voyage "voyage_slug", pyGet m "slug",
              (match infer_sort_order (pyGet m "slug") with
               | some n => toString n
               | none => ""), ""]
         | none => st.voyage_media
             ++ [[pyGet voyage "voyage_slug", pyGet m "slug",
                  (match infer_sort_order (pyGet m "slug") with
                   | some n => toString n
                   | none => ""), ""]])) := by
  have hps : (if pyGet p "slug" ≠ "" then pyGet p "slug"
      else pyGet p "person_slug") = pyGet p "slug" := if_pos hp1
  have hguard : ¬((if pyGet p "slug" ≠ "" then pyGet p "slug"
      else pyGet p "person_slug") = "") := by rw [hps]; exact hp1
  have hidxP : VOYAGE_PASSENGERS_HEADERS.findIdx?
      (fun h => decide (h = "person_slug")) = some 1 := rfl
  have hidxM : VOYAGE_MEDIA_HEADERS.findIdx?
      (fun h => decide (h = "media_slug")) = some 1 := rfl
  constructor
  · have e1 : pyGet [("voyage_slug", pyGet voyage "voyage_slug"),
        ("person_slug", pyGet p "slug"),
        ("capacity_role", infer_capacity_role p), ("notes", "")] "person_slug"
        = pyGet p "slug" := rfl
    have e2 : dict_to_row [("voyage_slug", pyGet voyage "voyage_slug"),
        ("person_slug", pyGet p "slug"),
        ("capacity_role", infer_capacity_role p), ("notes", "")]
        VOYAGE_PASSENGERS_HEADERS
        = [pyGet voyage "voyage_slug", pyGet p "slug",
           infer_capacity_role p, ""] := rfl
    simp only [sheets_update_all, List.foldl_cons, List.foldl_nil]
    rw [if_neg hv]
    simp only [Option.map_some']
    rw [if_neg hguard]
    simp only [upsertRows, hidxP, e1, e2, hps]
  · have e3 : pyGet [("voyage_slug", pyGet voyage "voyage_slug"),
        ("media_slug", pyGet m "slug"),
        ("sort_order", (match infer_sort_order (pyGet m "slug") with
          | some n => toString n
          | none => "")), ("notes", "")] "media_slug" = pyGet m "slug" := rfl
    have e4 : dict_to_row [("voyage_slug", pyGet voyage "voyage_slug"),
        ("media_slug", pyGet m "slug"),
        ("sort_order", (match infer_sort_order (pyGet m "slug") with
          | some n => toString n
          | none => "")), ("notes", "")] VOYAGE_MEDIA_HEADERS
        = [pyGet voyage "voyage_slug", pyGet m "slug",
           (match infer_sort_order (pyGet m "slug") with
            | some n => toString n
            | none => ""), ""] := rfl
    simp only [sheets_update_all, List.foldl_cons, List.foldl_nil]
    rw [if_neg hv]
    simp only [Option.map_some']
    rw [if_neg hm]
    simp only [upsertRows, hidxM, e3, e4]

/-- Witness for C4 amended: a bundle with voyage v2 hits the existing
voyage_passengers row for john-smith written under voyage v1 and
overwrites it in place. -/
theorem C4_witness :
    (sheets_update_all []
        { voyage_passengers := [["v1", "john-smith", "Guest", ""]] }
        [("voyage_slug", "v2")]
        [[("slug", "john-smith"), ("full_name", "John Smith")]]
        [[("slug", "img-01")]] []).map (fun st' => st'.voyage_passengers)
      = some [["v2", "john-smith", "Guest", ""]] :=
  ((C4_join_upsert_amended []
      { voyage_passengers := [["v1", "john-smith", "Guest", ""]] }
      [("voyage_slug", "v2")]
      [("slug", "john-smith"), ("full_name", "John Smith")]
      [("slug", "img-01")] []
      (by decide) (by decide) (by decide) (by decide)).1).trans (by decide)

/-- C5: any exception inside the per-voyage transaction rolls the database
back (the resulting state is the incoming one) and is re-raised, with the
voyage slug included in the logged error; when no exception is raised the
transaction commits the computed state. -/
theorem C5_transaction_rollback_commit
    (spreadsheetIdSet presCached : Bool)
    (presRows : Except String (List PresRow))
    (v : PyDict) (ppl med : List PyDict)
    (s3_links : List (String × (Option String × Option String)))
    (vslug : String) (db : DBState)
    (hv : v.lookup "voyage_slug" = some vslug) :
    (∀ e, upsertAllTxn spreadsheetIdSet presCached presRows v ppl med
        s3_links vslug db = .error e →
      upsert_all spreadsheetIdSet presCached presRows v ppl med s3_links db
        = (db, .error e,
           ["DB upsert failed for voyage " ++ vslug ++ ": " ++ e])
      ∧ ∃ pre post,
          "DB upsert failed for voyage " ++ vslug ++ ": " ++ e
            = pre ++ vslug ++ post)
    ∧ (∀ db', upsertAllTxn spreadsheetIdSet presCached presRows v ppl med
        s3_links vslug db = .ok db' →
      upsert_all spreadsheetIdSet presCached presRows v ppl med s3_links db
        = (db', .ok (), ["DB upsert complete for voyage " ++ vslug])) := by
  constructor
  · intro e he
    constructor
    · simp only [upsert_all, hv, he]
    · refine ⟨"DB upsert failed for voyage ", ": " ++ e, ?_⟩
      apply stringDataEq
      simp [String.data_append, List.append_assoc]
  · intro db' h
    simp only [upsert_all, hv, h]

/-- Witness for C5: a voyage whose start_date is the free-text April 1933
raises ValueError inside the transaction; the database state is returned
unchanged and the re-raised error is logged with the voyage slug. -/
theorem C5_witness :
    upsert_all false false (.ok [])
        [("voyage_slug", "1933-04-23-rf-trip"), ("title", "Trip"),
         ("start_date", "April 1933")] [] [] []
        { voyages := [{ voyage_slug := some "existing" }] }
      = ({ voyages := [{ voyage_slug := some "existing" }] },
         .error "Bad date (YYYY-MM-DD): April 1933",
         ["DB upsert failed for voyage 1933-04-23-rf-trip: Bad date (YYYY-MM-DD): April 1933"]) :=
  ((C5_transaction_rollback_commit false false (.ok [])
      [("voyage_slug", "1933-04-23-rf-trip"), ("title", "Trip"),
       ("start_date", "April 1933")] [] [] [] "1933-04-23-rf-trip"
      { voyages := [{ voyage_slug := some "existing" }] } rfl).1
    "Bad date (YYYY-MM-DD): April 1933" rfl).1

theorem gapiGo_success {α : Type} (maxRetries : Nat) (base bmax : ℚ)
    (calls : Nat → Except PyExc α) (rand : Nat → ℚ) (v : α) :
    ∀ (k attempt : Nat), attempt + k ≤ maxRetries →
      (∀ i, i < k → ∃ e, calls (attempt + i) = .error e
        ∧ excRetryable e = true) →
      calls (attempt + k) = .ok v →
      gapiGo maxRetries base bmax calls rand attempt
          (maxRetries + 1 - attempt)
        = (.ok v, k + 1,
           (List.range k).map (fun i => backoffSleep base bmax rand (attempt + i))) := by
  intro k
  induction k with
  | zero =>
    intro attempt hle _ hok
    have hrem : maxRetries + 1 - attempt = (maxRetries - attempt) + 1 := by omega
    have hok' : calls attempt = .ok v := by rwa [Nat.add_zero] at hok
    rw [hrem]
    simp [gapiGo, hok']
  | succ k ih =>
    intro attempt hle herr hok
    have hrem : maxRetries + 1 - attempt = (maxRetries - attempt) + 1 := by omega
    obtain ⟨e, he, hre⟩ := herr 0 (Nat.succ_pos k)
    rw [Nat.add_zero] at he
    rw [hrem]
    simp only [gapiGo, he]
    rw [if_neg (by push_neg; exact ⟨by simp [hre], by omega⟩)]
    have ih2 := ih (attempt + 1) (by omega)
      (fun i hi => by
        have := herr (i + 1) (by omega)
        rwa [show attempt + (i + 1) = attempt + 1 + i by omega] at this)
      (by rwa [show attempt + 1 + k = attempt + (k + 1) by omega])
    rw [show maxRetries - attempt = maxRetries + 1 - (attempt + 1) by omega,
      ih2]
    simp only [List.range_succ_eq_map, List.map_cons, List.map_map]
    refine congrArg _ (congrArg _ ?_)
    refine congrArg₂ List.cons ?_ ?_
    · rw [Nat.add_zero]
    · apply List.map_congr_left
      intro a _
      simp only [Function.comp]
      rw [show attempt + (a + 1) = attempt + 1 + a by omega]

theorem gapiGo_exhaust {α : Type} (maxRetries : Nat) (base bmax : ℚ)
    (calls : Nat → Except PyExc α) (rand : Nat → ℚ) :
    ∀ (rem attempt : Nat), rem = maxRetries + 1 - attempt →
      attempt ≤ maxRetries →
      (∀ i, attempt ≤ i → i ≤ maxRetries → ∃ e, calls i = .error e
        ∧ excRetryable e = true) →
      ∃ e, calls maxRetries = .error e
        ∧ gapiGo maxRetries base bmax calls rand attempt rem
          = (.error e, maxRetries + 1 - attempt,
             (List.range (maxRetries - attempt)).map
               (fun i => backoffSleep base bmax rand (attempt + i))) := by
  intro rem
  induction rem with
  | zero => intro attempt h1 h2 _; omega
  | succ rem ih =>
    intro attempt h1 h2 hall
    obtain ⟨e, he, hre⟩ := hall attempt le_rfl h2
    by_cases hlast : attempt = maxRetries
    · subst hlast
      refine ⟨e, he, ?_⟩
      simp only [gapiGo, he]
      rw [if_pos (Or.inr le_rfl)]
      simp
    · have hlt : attempt < maxRetries := lt_of_le_of_ne h2 hlast
      obtain ⟨e', he', hgo⟩ := ih (attempt + 1) (by omega) (by omega)
        (fun i hi1 hi2 => hall i (by omega) hi2)
      refine ⟨e', he', ?_⟩
      simp only [gapiGo, he]
      rw [if_neg (by push_neg; exact ⟨by simp [hre], by omega⟩)]
      rw [hgo]
      refine congrArg _ ?_
      refine congrArg₂ Prod.mk ?_ ?_
      · show (maxRetries + 1 - (attempt + 1)) + 1 = maxRetries + 1 - attempt
        omega
      · show backoffSleep base bmax rand attempt :: _ = _
        rw [show maxRetries - attempt = (maxRetries - (attempt + 1)) + 1 by omega,
          List.range_succ_eq_map, List.map_cons, List.map_map]
        refine congrArg₂ List.cons ?_ ?_
        · rw [Nat.add_zero]
        · apply List.map_congr_left
          intro a _
          simp only [Function.comp]
          rw [show attempt + (a + 1) = attempt + 1 + a by omega]

/-- C7: counterexample.  The claim says a non-retryable error propagates
immediately with no retry.  A plain ValueError carries no HTTP status and
no rate-limit message, so under the claimed classification it is
non-retryable; yet _gapi_with_retry (whose second except branch catches
every non-HttpError exception and always retries) calls the function
maxRetries + 1 = 3 times before re-raising it, not once. -/
theorem C7_counterexample :
    (@gapi_with_retry Unit 2 1 30
        (fun _ => Except.error (PyExc.other "ValueError" "boom"))
        (fun _ => 0)).1
      = Except.error (PyExc.other "ValueError" "boom")
    ∧ (@gapi_with_retry Unit 2 1 30
        (fun _ => Except.error (PyExc.other "ValueError" "boom"))
        (fun _ => 0)).2.1 = 3
    ∧ isRetryableHttp none "boom" = false :=
  ⟨rfl, rfl, by decide⟩

/-- C7 (amended): the retry harness _gapi_with_retry, on a call stream and
a jitter stream: (1) if the first k attempts raise errors the code
classifies as retryable (HttpError with status 429/500/502/503/504 or a
rate-limit message, or ANY non-HttpError exception) and attempt k
(k ≤ MAX_RETRIES) succeeds, it returns that first success after k + 1
calls, sleeping min(BACKOFF_MAX, BACKOFF_BASE * 2^attempt * (0.5 + random()))
between attempts; (2) a non-retryable HttpError on the first call
propagates immediately after exactly one call and no sleep (only
HttpErrors can be non-retryable: every other exception is retried);
(3) if every attempt up to MAX_RETRIES raises retryably, the error of the
last attempt is raised exactly once after MAX_RETRIES + 1 calls. -/
theorem C7_retry_harness_amended {α : Type} (maxRetries : Nat)
    (base bmax : ℚ) (calls : Nat → Except PyExc α) (rand : Nat → ℚ) :
    (∀ (v : α) (k : Nat), k ≤ maxRetries →
       (∀ i, i < k → ∃ e, calls i = .error e ∧ excRetryable e = true) →
       calls k = .ok v →
       gapi_with_retry maxRetries base bmax calls rand
         = (.ok v, k + 1, (List.range k).map (backoffSleep base bmax rand)))
    ∧ (∀ st msg, calls 0 = .error (.http st msg) →
       isRetryableHttp st msg = false →
       gapi_with_retry maxRetries base bmax calls rand
         = (.error (.http st msg), 1, []))
    ∧ ((∀ i, i ≤ maxRetries → ∃ e, calls i = .error e
          ∧ excRetryable e = true) →
       ∃ e, calls maxRetries = .error e
         ∧ gapi_with_retry maxRetries base bmax calls rand
           = (.error e, maxRetries + 1,
              (List.range maxRetries).map (backoffSleep base bmax rand))) := by
  refine ⟨?_, ?_, ?_⟩
  · intro v k hk herr hok
    have h := gapiGo_success maxRetries base bmax calls rand v k 0
      (by omega) (by intro i hi; simpa using herr i hi) (by simpa using hok)
    simpa [gapi_with_retry] using h
  · intro st msg h0 hnr
    simp only [gapi_with_retry, gapiGo, h0]
    rw [if_pos (Or.inl (by simp [excRetryable, hnr]))]
  · intro hall
    obtain ⟨e, he, hgo⟩ := gapiGo_exhaust maxRetries base bmax calls rand
      (maxRetries + 1) 0 (by omega) (Nat.zero_le _)
      (fun i _ hi2 => hall i hi2)
    exact ⟨e, he, by simpa [gapi_with_retry] using hgo⟩

/-- C7 amended theorem instantiated: a 404 HttpError (non-retryable) on a
stream that always raises it propagates after exactly one call with no
sleeps. -/
theorem C7_witness :
    @gapi_with_retry Unit 3 1 30
        (fun _ => Except.error (PyExc.http (some 404) "notFound"))
        (fun _ => 0)
      = (Except.error (PyExc.http (some 404) "notFound"), 1, []) :=
  (@C7_retry_harness_amended Unit 3 1 30
      (fun _ => Except.error (PyExc.http (some 404) "notFound"))
      (fun _ => 0)).2.1 (some 404) "notFound" rfl (by decide)

theorem pyGet_pySet_self (d : PyDict) (k v : String) :
    pyGet (pySet d k v) k = v := by
  induction d with
  | nil => simp [pySet, pyGet, List.lookup]
  | cons hd tl ih =>
    obtain ⟨k', v'⟩ := hd
    by_cases hk : k' = k
    · simp [pySet, hk, pyGet, List.lookup]
    · have hbe : (k == k') = false := by
        simp only [beq_eq_false_iff_ne]
        exact fun h => hk h.symm
      simp only [pySet, if_neg hk]
      simpa [pyGet, List.lookup, hbe] using ih

theorem flushVoyageDict_slug (m : PyDict) (pres : Option PyDict) (v : PyDict)
    (sd ps t : String) (h : flushSlugInput m pres v = (sd, ps, t))
    (hsd : sd ≠ "") (hps : ps ≠ "") (ht : t ≠ "") :
    pyGet (flushVoyageDict m pres v) "voyage_slug"
      = sd ++ "-" ++ ps ++ "-" ++ descriptor_from_title t := by
  simp only [flushSlugInput, Prod.mk.injEq] at h
  obtain ⟨h1, h2, h3⟩ := h
  simp only [flushVoyageDict, h1, h2, h3]
  rw [if_pos ⟨hsd, hps, ht⟩, pyGet_pySet_self]

/-- C3: counterexample.  A document with one president and two voyage
sections carrying the same start_date, president and title yields two
bundles with IDENTICAL voyage_slugs: the parser has no per-run
(start_date, president_slug) counter and never appends a -NN
disambiguator, so the second occurrence does not become ...-02. -/
theorem C3_counterexample :
    ((parse_doc_multi []
        ["## President", "full_name: Franklin Roosevelt",
         "## Voyage", "title: Fishing Trip", "start_date: 1933-04-23",
         "## Voyage", "title: Fishing Trip", "start_date: 1933-04-23"]).2.map
      (fun b => pyGet b.voyage "voyage_slug"))
      = ["1933-04-23-franklin-roosevelt-fishing-trip",
         "1933-04-23-franklin-roosevelt-fishing-trip"] := by
  rfl

/-- C3 (amended): _flush_voyage assigns every voyage whose computed
start_date, president_slug and title are nonempty the undecorated slug
{start_date}-{president_slug}-{descriptor_from_title(title)}, and the
slug is a pure function of that computed triple: any two voyages (in the
same run or not) whose triples coincide receive exactly the same slug —
there is no -NN disambiguation of repeated (start_date, president_slug)
tuples. -/
theorem C3_voyage_slug_amended (m : PyDict) (pres : Option PyDict)
    (v : PyDict) (sd ps t : String)
    (h : flushSlugInput m pres v = (sd, ps, t))
    (hsd : sd ≠ "") (hps : ps ≠ "") (ht : t ≠ "") :
    pyGet (flushVoyageDict m pres v) "voyage_slug"
      = sd ++ "-" ++ ps ++ "-" ++ descriptor_from_title t
    ∧ ∀ (pres2 : Option PyDict) (v2 : PyDict),
        flushSlugInput m pres2 v2 = (sd, ps, t) →
        pyGet (flushVoyageDict m pres2 v2) "voyage_slug"
          = pyGet (flushVoyageDict m pres v) "voyage_slug" := by
  refine ⟨flushVoyageDict_slug m pres v sd ps t h hsd hps ht, ?_⟩
  intro pres2 v2 h2
  rw [flushVoyageDict_slug m pres2 v2 sd ps t h2 hsd hps ht,
    flushVoyageDict_slug m pres v sd ps t h hsd hps ht]

/-- C3 amended theorem instantiated on a concrete voyage dict with
president context attached. -/
theorem C3_witness :
    pyGet (flushVoyageDict []
        (some [("full_name", "Franklin Roosevelt"),
               ("president_slug", "franklin-roosevelt")])
        [("title", "Fishing Trip"), ("start_date", "1933-04-23")])
      "voyage_slug"
      = "1933-04-23" ++ "-" ++ "franklin-roosevelt" ++ "-"
        ++ descriptor_from_title "Fishing Trip" :=
  (C3_voyage_slug_amended []
    (some [("full_name", "Franklin Roosevelt"),
           ("president_slug", "franklin-roosevelt")])
    [("title", "Fishing Trip"), ("start_date", "1933-04-23")]
    "1933-04-23" "franklin-roosevelt" "Fishing Trip"
    rfl (by decide) (by decide) (by decide)).1

/-- C6: counterexample.  Two valid voyages; the first one's DB upsert
fails with a RemoteFailure ("connection refused").  The orchestrator does
NOT log an ERROR row for it and does not abort it: both voyages get an
"OK" ingest_log row, and the only trace of the DB failure is a
LOG.warning line. -/
theorem C6_counterexample :
    (mainRows "2026-01-01T00:00:00Z" "doc1" false (fun _ => [])
        (fun _ => ([], []))
        (fun i => if i = 1 then .error "connection refused" else .ok ())
        1
        [{ voyage := [("voyage_slug", "1933-04-23-fdr-trip")],
           passengers := [], media := [] },
         { voyage := [("voyage_slug", "1934-05-01-fdr-cruise")],
           passengers := [], media := [] }]).1.map (fun r => r[3]?)
      = [some "OK", some "OK"]
    ∧ (mainRows "2026-01-01T00:00:00Z" "doc1" false (fun _ => [])
        (fun _ => ([], []))
        (fun i => if i = 1 then .error "connection refused" else .ok ())
        1
        [{ voyage := [("voyage_slug", "1933-04-23-fdr-trip")],
           passengers := [], media := [] },
         { voyage := [("voyage_slug", "1934-05-01-fdr-cruise")],
           passengers := [], media := [] }]).2.1
      = ["DB upsert failed for 1933-04-23-fdr-trip: connection refused"] := by
  constructor <;> rfl

/-- C6 (amended): in the orchestrator's per-voyage loop, a DB upsert
failure leaves the voyage's ingest_log row untouched — identical to the
row of a successful upsert, hence never an ERROR row — and its only
trace is the warning "DB upsert failed for {slug}: {e}" appended after
the media warnings; the row's status column is computed from the media
errors alone ("OK" or "WITH_WARNINGS", decided before the DB call); and
every bundle in the list contributes exactly one log row, so the
remaining voyages are always processed. -/
theorem C6_db_failure_amended (ts docId : String) (dryRun : Bool)
    (idx : Nat) (b : Bundle) (links : List (String × String × String))
    (merrs : List String) (e : String) :
    (processVoyage ts docId dryRun idx b [] links merrs (.error e)).1
      = (processVoyage ts docId dryRun idx b [] links merrs (.ok ())).1
    ∧ (processVoyage ts docId dryRun idx b [] links merrs (.error e)).2.1
      = merrs.map (fun me => "Media issue: " ++ me)
        ++ ["DB upsert failed for "
            ++ pyStripS (pyGet b.voyage "voyage_slug") ++ ": " ++ e]
    ∧ (processVoyage ts docId dryRun idx b [] links merrs (.error e)).1[3]?
      = some (if merrs = [] then "OK" else "WITH_WARNINGS")
    ∧ ∀ (valErrs : Nat → List String)
        (mediaRes : Nat → List (String × String × String) × List String)
        (dbRes : Nat → Except String Unit) (bundles : List Bundle) (i : Nat),
        (mainRows ts docId dryRun valErrs mediaRes dbRes i bundles).1.length
          = bundles.length := by
  refine ⟨by simp [processVoyage], by simp [processVoyage], ?_, ?_⟩
  · by_cases hm : merrs = []
    · simp [processVoyage, classify_status, hm]
    · simp [processVoyage, classify_status, hm]
  · intro valErrs mediaRes dbRes bundles
    induction bundles with
    | nil => intro i; rfl
    | cons b' rest ih => intro i; simp [mainRows, ih]

theorem moveOps_del (privB pubB oldB oldK newK oldPrev oldTh newPrev newTh : String)
    (io : ItemIO) (b k : String)
    (h : S3Op.del b k ∈ (moveOps privB pubB oldB oldK newK oldPrev oldTh
      newPrev newTh io).1) :
    (b, k) = (oldB, oldK) ∨ (b, k) = (pubB, oldPrev) ∨ (b, k) = (pubB, oldTh) := by
  simp only [moveOps] at h
  split_ifs at h <;> simp_all <;> tauto

theorem moveAttempt_del (known : List String) (privB pubB : String)
    (linkMap : List (String × PyDict)) (vslug : String) (m : PyDict)
    (io : ItemIO) (b k : String)
    (h : S3Op.del b k ∈ (moveAttempt known privB pubB linkMap vslug m io).1) :
    (b, k) ∈ itemMoveDeleteKeys known pubB linkMap vslug m := by
  simp only [moveAttempt, itemMoveDeleteKeys] at h ⊢
  cases he : (linkMap.lookup (pyLower (pyStripS (pyGet m "google_drive_link")))) with
  | none => simp only [he] at h; simp at h
  | some ex =>
    simp only [he] at h ⊢
    split_ifs at h ⊢ <;>
      first
        | (have h0 := moveOps_del _ _ _ _ _ _ _ _ _ io b k h
           rcases h0 with h5 | h5 | h5 <;> simp [h5])
        | simp at h

theorem uploadOps_no_del (known : List String)
    (privB pubB vslug mslug credit : String) (m : PyDict) (io : ItemIO)
    (b k : String) :
    S3Op.del b k ∉ uploadOps known privB pubB vslug mslug credit m io := by
  intro h
  simp only [uploadOps, List.mem_append] at h
  rcases h with h | h <;> split_ifs at h <;> simp_all

theorem downloadOps_no_del (known : List String)
    (privB pubB vslug mslug credit : String) (m : PyDict) (link : String)
    (io : ItemIO) (b k : String) :
    S3Op.del b k ∉ downloadOps known privB pubB vslug mslug credit m link io := by
  intro h
  simp only [downloadOps] at h
  split_ifs at h <;>
    first
      | exact uploadOps_no_del known privB pubB vslug mslug credit m io b k h
      | simp at h

theorem processItemOps_del (known : List String) (privB pubB : String)
    (linkMap : List (String × PyDict)) (vslug : String) (m : PyDict)
    (io : ItemIO) (b k : String)
    (h : S3Op.del b k ∈ processItemOps known privB pubB linkMap vslug m io) :
    (b, k) ∈ itemMoveDeleteKeys known pubB linkMap vslug m := by
  simp only [processItemOps] at h
  split_ifs at h with h1 h2
  · simp at h
  · exact moveAttempt_del known privB pubB linkMap vslug m io b k h
  · rcases List.mem_append.mp h with h | h
    · exact moveAttempt_del known privB pubB linkMap vslug m io b k h
    · exact absurd h (downloadOps_no_del known privB pubB vslug
        (pyStripS (pyGet m "slug")) (pyStripS (pyGet m "credit")) m
        (pyStripS (pyGet m "google_drive_link")) io b k)

theorem processAllMediaOps_del (known : List String) (privB pubB : String)
    (linkMap : List (String × PyDict)) (vslug : String) (ios : Nat → ItemIO)
    (b k : String) :
    ∀ (items : List PyDict) (i : Nat),
      S3Op.del b k ∈ processAllMediaOps known privB pubB linkMap vslug ios i items →
      ∃ m ∈ items, (b, k) ∈ itemMoveDeleteKeys known pubB linkMap vslug m := by
  intro items
  induction items with
  | nil => intro i h; simp [processAllMediaOps] at h
  | cons m rest ih =>
    intro i h
    rcases List.mem_append.mp h with h | h
    · exact ⟨m, List.mem_cons_self m rest,
        processItemOps_del known privB pubB linkMap vslug m (ios i) b k h⟩
    · obtain ⟨m', hm', hk⟩ := ih (i + 1) h
      exact ⟨m', List.mem_cons_of_mem m hm', hk⟩

theorem runOps_del (known : List String) (privB pubB : String)
    (linkMap : List (String × PyDict)) (ios : Nat → Nat → ItemIO)
    (b k : String) :
    ∀ (voyages : List (String × List PyDict)) (v : Nat),
      S3Op.del b k ∈ runOps known privB pubB linkMap ios v voyages →
      ∃ vi ∈ voyages, ∃ m ∈ vi.2,
        (b, k) ∈ itemMoveDeleteKeys known pubB linkMap vi.1 m := by
  intro voyages
  induction voyages with
  | nil => intro v h; simp [runOps] at h
  | cons vi rest ih =>
    intro v h
    obtain ⟨vslug, items⟩ := vi
    rcases List.mem_append.mp h with h | h
    · obtain ⟨m, hm, hk⟩ := processAllMediaOps_del known privB pubB linkMap
        vslug (ios v) b k items 1 h
      exact ⟨(vslug, items), List.mem_cons_self _ rest, m, hm, hk⟩
    · obtain ⟨vi', hvi', m, hm, hk⟩ := ih (v + 1) h
      exact ⟨vi', List.mem_cons_of_mem _ hvi', m, hm, hk⟩

theorem mem_applyOps (b k : String) :
    ∀ (ops : List S3Op) (st : List (String × String)),
      (b, k) ∈ st →
      (∀ b' k', S3Op.del b' k' ∈ ops → (b, k) ≠ (b', k')) →
      (b, k) ∈ applyOps st ops := by
  intro ops
  induction ops with
  | nil => intro st h _; exact h
  | cons op rest ih =>
    intro st h hnd
    have hstep : (b, k) ∈ applyOp st op := by
      cases op with
      | put b2 k2 =>
        simp only [applyOp]
        split_ifs <;> simp [h]
      | copy sb sk db dk =>
        simp only [applyOp]
        split_ifs <;> simp [h]
      | del b2 k2 =>
        have hne : (b, k) ≠ (b2, k2) :=
          hnd b2 k2 (List.mem_cons_self _ rest)
        simpa [applyOp, List.mem_filter, hne]
      using h
    exact ih (applyOp st op) hstep
      (fun b' k' hm => hnd b' k' (List.mem_cons_of_mem op hm))

theorem runS3_eq_applyOps (known : List String) (privB pubB : String)
    (linkMap : List (String × PyDict)) (ios : Nat → Nat → ItemIO) :
    ∀ (voyages : List (String × List PyDict)) (v : Nat)
      (st : List (String × String)),
      runS3 known privB pubB linkMap ios v voyages st
        = applyOps st (runOps known privB pubB linkMap ios v voyages) := by
  intro voyages
  induction voyages with
  | nil => intro v st; rfl
  | cons vi rest ih =>
    intro v st
    obtain ⟨vslug, items⟩ := vi
    simp only [runS3, runOps, diff_and_prune_s3_keys, ih, applyOps,
      List.foldl_append]

/-- C2: object-store deletion happens only on the move-on-rename path.
Over a whole run — the global prune of voyages missing from the document
(which per the spec touches only DB and spreadsheet) followed by the
per-voyage loop — (1) every DELETE call targets one of the three
move-on-rename keys of some processed media item: the old original key
parsed from the existing same-link row's s3_url, or the two old
derivative keys, and only when the recomputed canonical key differs;
and (2) every (bucket, key) pair present before the run that is not
such a move-old key is still present after the run. -/
theorem C2_s3_deletion_only_on_move (known : List String) (privB pubB : String)
    (linkMap : List (String × PyDict)) (desired : List String)
    (ios : Nat → Nat → ItemIO) (voyages : List (String × List PyDict))
    (st0 : List (String × String)) (b k : String)
    (hmem : (b, k) ∈ st0)
    (hnotmoved : ∀ vi ∈ voyages, ∀ m ∈ vi.2,
      (b, k) ∉ itemMoveDeleteKeys known pubB linkMap vi.1 m) :
    (b, k) ∈ run_s3_state known privB pubB linkMap desired ios voyages st0
    ∧ ∀ b' k',
        S3Op.del b' k' ∈ runOps known privB pubB linkMap ios 0 voyages →
        ∃ vi ∈ voyages, ∃ m ∈ vi.2,
          (b', k') ∈ itemMoveDeleteKeys known pubB linkMap vi.1 m := by
  constructor
  · rw [run_s3_state, runS3_eq_applyOps, prune_voyages_missing_from_doc_s3]
    apply mem_applyOps b k _ st0 hmem
    intro b' k' hdel heq
    obtain ⟨vi, hvi, m, hm, hk⟩ := runOps_del known privB pubB linkMap ios
      b' k' voyages 0 hdel
    exact hnotmoved vi hvi m hm (heq ▸ hk)
  · intro b' k' hdel
    exact runOps_del known privB pubB linkMap ios b' k' voyages 0 hdel

/-- C2 theorem instantiated: with an empty link map no move can happen,
and a pre-existing key survives a run over one voyage with one item. -/
theorem C2_witness :
    ("priv", "media/old") ∈ run_s3_state [] "priv" "pub" [] []
      (fun _ _ => ⟨false, false, false, false, false, false, false, false,
        "", "", false, false, 0⟩)
      [("1933-04-23-a-b", [[("slug", "m-01"), ("google_drive_link", "x")]])]
      [("priv", "media/old")] :=
  (C2_s3_deletion_only_on_move [] "priv" "pub" [] []
    (fun _ _ => ⟨false, false, false, false, false, false, false, false,
      "", "", false, false, 0⟩)
    [("1933-04-23-a-b", [[("slug", "m-01"), ("google_drive_link", "x")]])]
    [("priv", "media/old")] "priv" "media/old"
    (by decide) (by decide)).1

end VoyageIngest

